import Mathlib


/-!
# Verification of the RapidTexter LAN multiplayer core (`NetworkManager`)

Shallow embedding of `src/src/NetworkManager.cpp` / `src/include/NetworkManager.h`.

Conventions of the embedding:
* `QString` / `QByteArray` are modelled as `Str := List Char` (a `QByteArray` cell
  that holds a raw byte value `b < 256` is modelled as `Char.ofNat b`; lengths are
  counted in list elements, abstracting UTF-8 code units).
* JSON (`QJsonValue` / `QJsonArray` / `QJsonObject`) is the mutual inductive family
  `Json` / `JArr` / `JObj` below.  JSON numbers are modelled as `Int`: floating-point
  doubles are not embeddable, and every field the verified claims touch is integral.
* A `QJsonObject` keeps its keys sorted and unique; values built by the embedded code
  are constructed directly in sorted key order, matching the serialized form Qt emits.
* Qt signals, socket writes, socket closes and timer operations are modelled as an
  explicit effect trace `List Eff` returned next to the new state.
-/

set_option maxRecDepth 4000

/-- Model of `QString` and `QByteArray`: a list of characters. -/
abbrev Str : Type := List Char

/-- The double-quote character, written numerically to keep string literals plain. -/
def cQuote : Char := Char.ofNat 34

/-- The backslash character. -/
def cBackslash : Char := Char.ofNat 92

/-- The opening-brace character of JSON objects. -/
def cLBrace : Char := Char.ofNat 123

/-- The closing-brace character of JSON objects. -/
def cRBrace : Char := Char.ofNat 125

/-- Lexicographic comparison of two character lists; model of `QString::operator<`
(comparison of code units). -/
def strLt : Str → Str → Bool
  | [], [] => false
  | [], _ :: _ => true
  | _ :: _, [] => false
  | a :: as, b :: bs =>
    if a.toNat < b.toNat then true
    else if b.toNat < a.toNat then false
    else strLt as bs

/-- Decimal digit test on the numeric value of a character. -/
def isDig (c : Char) : Bool := 48 ≤ c.toNat && c.toNat ≤ 57

/-- The decimal digit character for `n < 10`. -/
def digitChar (n : Nat) : Char := Char.ofNat (48 + n)

/-- Decimal digits of a natural number, most significant first; the fuel (any
bound above `n`) only makes the recursion structural. -/
def natDigitsGo : Nat → Nat → List Char
  | 0, _ => []
  | fuel + 1, n =>
    if n < 10 then [digitChar n]
    else natDigitsGo fuel (n / 10) ++ [digitChar (n % 10)]

/-- Decimal digits of a natural number, most significant first. -/
def natDigits (n : Nat) : List Char := natDigitsGo (n + 1) n

theorem natDigitsGo_eq (n : Nat) : ∀ (fuel : Nat), n < fuel →
    natDigitsGo fuel n = natDigits n := by
  induction n using Nat.strong_induction_on with
  | _ n ih =>
    intro fuel hf
    obtain ⟨f, rfl⟩ : ∃ f, fuel = f + 1 := ⟨fuel - 1, by omega⟩
    rw [natDigits, natDigitsGo, natDigitsGo]
    by_cases h10 : n < 10
    · simp [h10]
    · have hd : n / 10 < n := Nat.div_lt_self (by omega) (by omega)
      rw [if_neg h10, if_neg h10,
        ih (n / 10) hd f (by omega), ih (n / 10) hd n (by omega)]

/-- The recursive unfolding of `natDigits`. -/
theorem natDigits_eq (n : Nat) : natDigits n =
    if n < 10 then [digitChar n]
    else natDigits (n / 10) ++ [digitChar (n % 10)] := by
  rw [natDigits, natDigitsGo]
  by_cases h10 : n < 10
  · simp [h10]
  · have hd : n / 10 < n := Nat.div_lt_self (by omega) (by omega)
    rw [if_neg h10, if_neg h10, natDigitsGo_eq (n / 10) n (by omega)]

/-- Decimal rendering of an integer (Qt renders integral JSON numbers this way). -/
def writeInt (n : Int) : Str :=
  if n < 0 then '-' :: natDigits n.natAbs else natDigits n.natAbs

/-- Digit-list accumulator: the value of a digit string. -/
def digitsValGo (acc : Nat) : List Char → Nat
  | [] => acc
  | c :: cs => digitsValGo (acc * 10 + (c.toNat - 48)) cs

/-- The numeric value of a decimal digit string. -/
def digitsVal (s : List Char) : Nat := digitsValGo 0 s

mutual

/-- Model of `QJsonValue`: JSON values.  Numbers are integral (`Int`); see the
file header about floating point. -/
inductive Json where
  | null : Json
  | bool (b : Bool) : Json
  | num (n : Int) : Json
  | str (s : Str) : Json
  | arr (a : JArr) : Json
  | obj (o : JObj) : Json
deriving DecidableEq

/-- Model of `QJsonArray`. -/
inductive JArr where
  | nil : JArr
  | cons (v : Json) (tl : JArr) : JArr
deriving DecidableEq

/-- Model of `QJsonObject`: an association list of key/value pairs.  Values built
by the embedded code keep keys sorted and unique (the `QJsonObject` invariant). -/
inductive JObj where
  | nil : JObj
  | cons (k : Str) (v : Json) (tl : JObj) : JObj
deriving DecidableEq

end

/-- Hexadecimal digit character (lowercase) for `n < 16`. -/
def hexChar (n : Nat) : Char :=
  if n < 10 then Char.ofNat (48 + n) else Char.ofNat (87 + n)

/-- JSON string escaping of one character, mirroring Qt's compact writer: quote and
backslash are escaped, control characters use the short escapes or `\u00XX`, and
every other character is emitted literally. -/
def escapeChar (c : Char) : List Char :=
  if c = cQuote then [cBackslash, cQuote]
  else if c = cBackslash then [cBackslash, cBackslash]
  else if c.toNat < 32 then
    if c.toNat = 8 then [cBackslash, 'b']
    else if c.toNat = 9 then [cBackslash, 't']
    else if c.toNat = 10 then [cBackslash, 'n']
    else if c.toNat = 12 then [cBackslash, 'f']
    else if c.toNat = 13 then [cBackslash, 'r']
    else [cBackslash, 'u', '0', '0', hexChar (c.toNat / 16), hexChar (c.toNat % 16)]
  else [c]

/-- The escaped body of a JSON string literal. -/
def writeStrBody : Str → List Char
  | [] => []
  | c :: cs => escapeChar c ++ writeStrBody cs

/-- A complete JSON string literal including the surrounding quotes. -/
def writeStr (s : Str) : List Char := cQuote :: writeStrBody s ++ [cQuote]

mutual

/-- Compact JSON rendering of a value (model of
`QJsonDocument(obj).toJson(QJsonDocument::Compact)`). -/
def writeVal : Json → List Char
  | Json.null => ['n', 'u', 'l', 'l']
  | Json.bool true => ['t', 'r', 'u', 'e']
  | Json.bool false => ['f', 'a', 'l', 's', 'e']
  | Json.num n => writeInt n
  | Json.str s => writeStr s
  | Json.arr a => '[' :: writeArrItems a
  | Json.obj o => cLBrace :: writeObjItems o

/-- Body of an array rendering, starting right after the opening bracket. -/
def writeArrItems : JArr → List Char
  | JArr.nil => [']']
  | JArr.cons v tl => writeVal v ++ writeArrTail tl

/-- Continuation of an array rendering: a comma-separated tail. -/
def writeArrTail : JArr → List Char
  | JArr.nil => [']']
  | JArr.cons v tl => ',' :: writeVal v ++ writeArrTail tl

/-- Body of an object rendering, starting right after the opening brace. -/
def writeObjItems : JObj → List Char
  | JObj.nil => [cRBrace]
  | JObj.cons k v tl => writeStr k ++ ':' :: writeVal v ++ writeObjTail tl

/-- Continuation of an object rendering: a comma-separated tail. -/
def writeObjTail : JObj → List Char
  | JObj.nil => [cRBrace]
  | JObj.cons k v tl => ',' :: writeStr k ++ ':' :: writeVal v ++ writeObjTail tl

end

/-- Value of a hexadecimal digit character, `none` if not hexadecimal. -/
def hexVal (c : Char) : Option Nat :=
  if 48 ≤ c.toNat && c.toNat ≤ 57 then some (c.toNat - 48)
  else if 97 ≤ c.toNat && c.toNat ≤ 102 then some (c.toNat - 87)
  else if 65 ≤ c.toNat && c.toNat ≤ 70 then some (c.toNat - 55)
  else none

/-- Parser for the body of a JSON string literal (after the opening quote); returns
the unescaped content and the input following the closing quote.  Surrogate-pair
recombination is irrelevant here: the writer only emits `\u` escapes for control
characters. -/
def parseStrBody (cs : List Char) : Option (Str × List Char) :=
  match cs with
  | [] => none
  | c :: cs1 =>
    if c = cQuote then some ([], cs1)
    else if c = cBackslash then
      match cs1 with
      | [] => none
      | e :: cs2 =>
        if e = cQuote then (fun p => (cQuote :: p.1, p.2)) <$> parseStrBody cs2
        else if e = cBackslash then (fun p => (cBackslash :: p.1, p.2)) <$> parseStrBody cs2
        else if e = '/' then (fun p => ('/' :: p.1, p.2)) <$> parseStrBody cs2
        else if e = 'b' then (fun p => (Char.ofNat 8 :: p.1, p.2)) <$> parseStrBody cs2
        else if e = 'f' then (fun p => (Char.ofNat 12 :: p.1, p.2)) <$> parseStrBody cs2
        else if e = 'n' then (fun p => (Char.ofNat 10 :: p.1, p.2)) <$> parseStrBody cs2
        else if e = 'r' then (fun p => (Char.ofNat 13 :: p.1, p.2)) <$> parseStrBody cs2
        else if e = 't' then (fun p => (Char.ofNat 9 :: p.1, p.2)) <$> parseStrBody cs2
        else if e = 'u' then
          match cs2 with
          | h1 :: h2 :: h3 :: h4 :: cs3 =>
            match hexVal h1, hexVal h2, hexVal h3, hexVal h4 with
            | some a, some b, some c2, some d =>
              (fun p => (Char.ofNat (((a * 16 + b) * 16 + c2) * 16 + d) :: p.1, p.2)) <$>
                parseStrBody cs3
            | _, _, _, _ => none
          | _ => none
        else none
    else (fun p => (c :: p.1, p.2)) <$> parseStrBody cs1

/-- Splits off the maximal leading run of decimal digits. -/
def spanDigits : List Char → (List Char × List Char)
  | [] => ([], [])
  | c :: cs =>
    if isDig c then
      let p := spanDigits cs
      (c :: p.1, p.2)
    else ([], c :: cs)

/-- Parser for a JSON number at the head of the input (digits, or minus and digits). -/
def parseNum (cs : List Char) : Option (Int × List Char) :=
  match cs with
  | [] => none
  | c :: cs1 =>
    if c = '-' then
      let p := spanDigits cs1
      if p.1 = [] then none else some (-(digitsVal p.1 : Int), p.2)
    else
      let p := spanDigits (c :: cs1)
      if p.1 = [] then none else some ((digitsVal p.1 : Int), p.2)

mutual

/-- Fueled recursive-descent parser for a JSON value.  Every level of nesting
consumes one unit of fuel; `parseDoc` supplies more fuel than any input could
need.  The writer emits no whitespace, and whitespace handling is irrelevant to
the verified claims, so none is skipped. -/
def parseVal (fuel : Nat) (cs : List Char) : Option (Json × List Char) :=
  match fuel with
  | 0 => none
  | fuel + 1 =>
    match cs with
    | [] => none
    | c :: cs1 =>
      if c = 'n' then
        match cs1 with
        | 'u' :: 'l' :: 'l' :: cs2 => some (Json.null, cs2)
        | _ => none
      else if c = 't' then
        match cs1 with
        | 'r' :: 'u' :: 'e' :: cs2 => some (Json.bool true, cs2)
        | _ => none
      else if c = 'f' then
        match cs1 with
        | 'a' :: 'l' :: 's' :: 'e' :: cs2 => some (Json.bool false, cs2)
        | _ => none
      else if c = '[' then (fun p => (Json.arr p.1, p.2)) <$> parseArrStart fuel cs1
      else if c = cQuote then (fun p => (Json.str p.1, p.2)) <$> parseStrBody cs1
      else if c = cLBrace then (fun p => (Json.obj p.1, p.2)) <$> parseObjStart fuel cs1
      else if c = '-' || isDig c then
        (fun p => (Json.num p.1, p.2)) <$> parseNum (c :: cs1)
      else none

/-- Parses the items of an array, right after the opening bracket. -/
def parseArrStart (fuel : Nat) (cs : List Char) : Option (JArr × List Char) :=
  match fuel with
  | 0 => none
  | fuel + 1 =>
    match cs with
    | [] => none
    | c :: cs1 =>
      if c = ']' then some (JArr.nil, cs1)
      else
        match parseVal fuel (c :: cs1) with
        | none => none
        | some (v, cs2) =>
          (fun p => (JArr.cons v p.1, p.2)) <$> parseArrTail fuel cs2

/-- Parses the continuation of an array: a comma and a value, or the close bracket. -/
def parseArrTail (fuel : Nat) (cs : List Char) : Option (JArr × List Char) :=
  match fuel with
  | 0 => none
  | fuel + 1 =>
    match cs with
    | [] => none
    | c :: cs1 =>
      if c = ']' then some (JArr.nil, cs1)
      else if c = ',' then
        match parseVal fuel cs1 with
        | none => none
        | some (v, cs2) =>
          (fun p => (JArr.cons v p.1, p.2)) <$> parseArrTail fuel cs2
      else none

/-- Parses the members of an object, right after the opening brace. -/
def parseObjStart (fuel : Nat) (cs : List Char) : Option (JObj × List Char) :=
  match fuel with
  | 0 => none
  | fuel + 1 =>
    match cs with
    | [] => none
    | c :: cs1 =>
      if c = cRBrace then some (JObj.nil, cs1)
      else if c = cQuote then
        match parseStrBody cs1 with
        | none => none
        | some (k, cs2) =>
          match cs2 with
          | ':' :: cs3 =>
            match parseVal fuel cs3 with
            | none => none
            | some (v, cs4) =>
              (fun p => (JObj.cons k v p.1, p.2)) <$> parseObjTail fuel cs4
          | _ => none
      else none

/-- Parses the continuation of an object: a comma and a member, or the close brace. -/
def parseObjTail (fuel : Nat) (cs : List Char) : Option (JObj × List Char) :=
  match fuel with
  | 0 => none
  | fuel + 1 =>
    match cs with
    | [] => none
    | c :: cs1 =>
      if c = cRBrace then some (JObj.nil, cs1)
      else if c = ',' then
        match cs1 with
        | c2 :: cs2 =>
          if c2 = cQuote then
            match parseStrBody cs2 with
            | none => none
            | some (k, cs3) =>
              match cs3 with
              | ':' :: cs4 =>
                match parseVal fuel cs4 with
                | none => none
                | some (v, cs5) =>
                  (fun p => (JObj.cons k v p.1, p.2)) <$> parseObjTail fuel cs5
              | _ => none
          else none
        | [] => none
      else none

end

/-- Model of `QJsonDocument::fromJson` restricted to the compact forms the codec
produces: parses a complete document, requiring the whole input to be consumed. -/
def parseDoc (data : List Char) : Option Json :=
  match parseVal (data.length + 1) data with
  | some (v, []) => some v
  | _ => none


/-- The head of the remaining input is not a decimal digit (so a preceding number
literal cannot be extended).  Holds for every continuation the writer produces. -/
def noDigHead : List Char → Prop
  | [] => True
  | c :: _ => isDig c = false

theorem digitChar_toNat {n : Nat} (h : n < 10) : (digitChar n).toNat = 48 + n := by
  interval_cases n <;> decide

theorem isDig_digitChar {n : Nat} (h : n < 10) : isDig (digitChar n) = true := by
  interval_cases n <;> decide

theorem natDigits_ne_nil (n : Nat) : natDigits n ≠ [] := by
  rw [natDigits_eq]
  split <;> simp

theorem natDigits_all_dig (n : Nat) : ∀ c ∈ natDigits n, isDig c = true := by
  induction n using Nat.strong_induction_on with
  | _ n ih =>
    rw [natDigits_eq]
    split
    · next h => simpa using isDig_digitChar h
    · next h =>
      intro c hc
      rcases List.mem_append.mp hc with h1 | h1
      · exact ih (n / 10) (Nat.div_lt_self (by omega) (by omega)) c h1
      · simp only [List.mem_singleton] at h1
        subst h1
        exact isDig_digitChar (Nat.mod_lt _ (by omega))

theorem digitsValGo_append (acc : Nat) (xs : List Char) (c : Char) :
    digitsValGo acc (xs ++ [c]) = digitsValGo acc xs * 10 + (c.toNat - 48) := by
  induction xs generalizing acc with
  | nil => rfl
  | cons x xs ih =>
    rw [List.cons_append]
    show digitsValGo (acc * 10 + (x.toNat - 48)) (xs ++ [c]) = _
    rw [ih]
    rfl

theorem digitsVal_natDigits (n : Nat) : digitsVal (natDigits n) = n := by
  induction n using Nat.strong_induction_on with
  | _ n ih =>
    rw [natDigits_eq]
    split
    · next h =>
      show digitsValGo (0 * 10 + ((digitChar n).toNat - 48)) [] = n
      rw [digitChar_toNat h]
      show 0 * 10 + (48 + n - 48) = n
      omega
    · next h =>
      have hrec := ih (n / 10) (Nat.div_lt_self (by omega) (by omega))
      simp only [digitsVal] at hrec ⊢
      rw [digitsValGo_append, hrec, digitChar_toNat (Nat.mod_lt _ (by omega))]
      omega

theorem spanDigits_exact (ds rest : List Char) (hd : ∀ c ∈ ds, isDig c = true)
    (hr : noDigHead rest) : spanDigits (ds ++ rest) = (ds, rest) := by
  induction ds with
  | nil =>
    cases rest with
    | nil => rfl
    | cons c cs =>
      have hc : isDig c = false := hr
      show spanDigits (c :: cs) = ([], c :: cs)
      rw [spanDigits]
      simp [hc]
  | cons d ds ih =>
    have hdd : isDig d = true := hd d (by simp)
    rw [List.cons_append, spanDigits]
    simp only [hdd, if_true]
    rw [ih (fun c hc => hd c (by simp [hc]))]

theorem isDig_toNat {c : Char} (h : isDig c = true) : 48 ≤ c.toNat ∧ c.toNat ≤ 57 := by
  simp [isDig] at h
  omega

theorem parseNum_writeInt (n : Int) (rest : List Char) (hr : noDigHead rest) :
    parseNum (writeInt n ++ rest) = some (n, rest) := by
  have hnil : natDigits n.natAbs ≠ [] := natDigits_ne_nil _
  by_cases hn : n < 0
  · rw [writeInt, if_pos hn, List.cons_append, parseNum]
    simp only [if_pos rfl]
    rw [spanDigits_exact _ _ (natDigits_all_dig _) hr]
    simp [hnil, digitsVal_natDigits]
    rw [abs_of_neg hn]
    ring
  · rw [writeInt, if_neg hn]
    obtain ⟨d, ds, hds⟩ : ∃ d ds, natDigits n.natAbs = d :: ds := by
      cases h : natDigits n.natAbs with
      | nil => exact absurd h hnil
      | cons d ds => exact ⟨d, ds, rfl⟩
    have hd : isDig d = true := natDigits_all_dig n.natAbs d (by rw [hds]; simp)
    have hdm : d ≠ '-' := by
      intro hcontra
      rw [hcontra] at hd
      exact absurd hd (by decide)
    rw [hds, List.cons_append, parseNum]
    simp only [hdm, if_false, if_neg, not_false_iff]
    rw [show d :: (ds ++ rest) = (d :: ds) ++ rest from rfl, ← hds,
      spanDigits_exact _ _ (natDigits_all_dig _) hr]
    simp [hnil, digitsVal_natDigits]
    omega

theorem hexVal_hexChar {n : Nat} (h : n < 16) : hexVal (hexChar n) = some n := by
  interval_cases n <;> decide

theorem parseStrBody_escape (c : Char) (X : List Char) :
    parseStrBody (escapeChar c ++ X) =
      (fun p => (c :: p.1, p.2)) <$> parseStrBody X := by
  by_cases h1 : c = cQuote
  · subst h1
    rw [show escapeChar cQuote = [cBackslash, cQuote] from by decide, List.cons_append,
      List.cons_append, List.nil_append, parseStrBody.eq_def]
    simp +decide
  · by_cases h2 : c = cBackslash
    · subst h2
      rw [show escapeChar cBackslash = [cBackslash, cBackslash] from by decide, List.cons_append,
        List.cons_append, List.nil_append, parseStrBody.eq_def]
      simp +decide
    · by_cases h3 : c.toNat < 32
      · have hc : c = Char.ofNat c.toNat := (Char.ofNat_toNat c).symm
        by_cases e8 : c.toNat = 8
        · rw [show c = Char.ofNat 8 from by rw [hc, e8], show escapeChar (Char.ofNat 8) =
            [cBackslash, 'b'] from by decide, List.cons_append, List.cons_append,
            List.nil_append, parseStrBody.eq_def]
          simp +decide
        · by_cases e9 : c.toNat = 9
          · rw [show c = Char.ofNat 9 from by rw [hc, e9], show escapeChar (Char.ofNat 9) =
              [cBackslash, 't'] from by decide, List.cons_append, List.cons_append,
              List.nil_append, parseStrBody.eq_def]
            simp +decide
          · by_cases e10 : c.toNat = 10
            · rw [show c = Char.ofNat 10 from by rw [hc, e10], show escapeChar (Char.ofNat 10) =
                [cBackslash, 'n'] from by decide, List.cons_append, List.cons_append,
                List.nil_append, parseStrBody.eq_def]
              simp +decide
            · by_cases e12 : c.toNat = 12
              · rw [show c = Char.ofNat 12 from by rw [hc, e12], show escapeChar (Char.ofNat 12) =
                  [cBackslash, 'f'] from by decide, List.cons_append, List.cons_append,
                  List.nil_append, parseStrBody.eq_def]
                simp +decide
              · by_cases e13 : c.toNat = 13
                · rw [show c = Char.ofNat 13 from by rw [hc, e13], show escapeChar (Char.ofNat 13) =
                    [cBackslash, 'r'] from by decide, List.cons_append, List.cons_append,
                    List.nil_append, parseStrBody.eq_def]
                  simp +decide
                · have hesc : escapeChar c = [cBackslash, 'u', '0', '0',
                      hexChar (c.toNat / 16), hexChar (c.toNat % 16)] := by
                    rw [escapeChar, if_neg h1, if_neg h2, if_pos h3, if_neg e8, if_neg e9,
                      if_neg e10, if_neg e12, if_neg e13]
                  rw [hesc]
                  show parseStrBody (cBackslash :: 'u' :: '0' :: '0' ::
                    hexChar (c.toNat / 16) :: hexChar (c.toNat % 16) :: X) = _
                  rw [parseStrBody.eq_def]
                  simp +decide [show hexVal '0' = some 0 from rfl,
                    hexVal_hexChar (show c.toNat / 16 < 16 by omega),
                    hexVal_hexChar (show c.toNat % 16 < 16 by omega)]
                  rw [show c.toNat / 16 * 16 + c.toNat % 16 = c.toNat from by omega,
                    Char.ofNat_toNat]
      · have hesc : escapeChar c = [c] := by
          rw [escapeChar, if_neg h1, if_neg h2, if_neg h3]
        rw [hesc, List.cons_append, List.nil_append, parseStrBody.eq_def]
        simp [h1, h2]

theorem parseStrBody_write (s : Str) (X : List Char) :
    parseStrBody (writeStrBody s ++ (cQuote :: X)) = some (s, X) := by
  induction s with
  | nil =>
    show parseStrBody (cQuote :: X) = some ([], X)
    rw [parseStrBody.eq_def]
    simp +decide
  | cons c cs ih =>
    rw [writeStrBody, List.append_assoc, parseStrBody_escape, ih]
    rfl

mutual

/-- Fuel sufficient for `parseVal` to parse the rendering of a value. -/
def jfuel : Json → Nat
  | Json.null => 1
  | Json.bool _ => 1
  | Json.num _ => 1
  | Json.str _ => 1
  | Json.arr a => 1 + afuel a
  | Json.obj o => 1 + ofuel o

/-- Fuel sufficient for `parseArrStart` / `parseArrTail` on a rendered array body. -/
def afuel : JArr → Nat
  | JArr.nil => 1
  | JArr.cons v tl => 1 + max (jfuel v) (afuel tl)

/-- Fuel sufficient for `parseObjStart` / `parseObjTail` on a rendered object body. -/
def ofuel : JObj → Nat
  | JObj.nil => 1
  | JObj.cons _ v tl => 1 + max (jfuel v) (ofuel tl)

end

theorem writeInt_head (n : Int) :
    ∃ d ds, writeInt n = d :: ds ∧ (d = '-' ∨ isDig d = true) := by
  obtain ⟨d, ds, hds⟩ : ∃ d ds, natDigits n.natAbs = d :: ds := by
    cases h : natDigits n.natAbs with
    | nil => exact absurd h (natDigits_ne_nil _)
    | cons d ds => exact ⟨d, ds, rfl⟩
  have hd : isDig d = true := natDigits_all_dig n.natAbs d (by rw [hds]; simp)
  by_cases hn : n < 0
  · exact ⟨'-', natDigits n.natAbs, by rw [writeInt, if_pos hn], Or.inl rfl⟩
  · exact ⟨d, ds, by rw [writeInt, if_neg hn, hds], Or.inr hd⟩

theorem writeVal_head (v : Json) :
    ∃ c cs, writeVal v = c :: cs ∧ c ≠ ']' ∧ c ≠ ',' := by
  cases v with
  | null => exact ⟨'n', _, rfl, by decide, by decide⟩
  | bool b => cases b with
    | true => exact ⟨'t', _, rfl, by decide, by decide⟩
    | false => exact ⟨'f', _, rfl, by decide, by decide⟩
  | num n =>
    obtain ⟨d, ds, hds, hdp⟩ := writeInt_head n
    refine ⟨d, ds, by rw [writeVal, hds], ?_, ?_⟩ <;>
      rcases hdp with h | h
    · subst h; decide
    · intro e; subst e; exact absurd h (by decide)
    · subst h; decide
    · intro e; subst e; exact absurd h (by decide)
  | str s => exact ⟨cQuote, _, rfl, by decide, by decide⟩
  | arr a => exact ⟨'[', _, rfl, by decide, by decide⟩
  | obj o => exact ⟨cLBrace, _, rfl, by decide, by decide⟩

theorem writeVal_length_pos (v : Json) : 0 < (writeVal v).length := by
  obtain ⟨c, cs, h, -, -⟩ := writeVal_head v
  rw [h]
  simp

theorem writeArrTail_length_pos (tl : JArr) : 0 < (writeArrTail tl).length := by
  cases tl with
  | nil => decide
  | cons v tl2 => rw [writeArrTail]; simp

theorem writeObjTail_length_pos (tl : JObj) : 0 < (writeObjTail tl).length := by
  cases tl with
  | nil => decide
  | cons k v tl2 => rw [writeObjTail]; simp

theorem noDigHead_arrTail (tl : JArr) (rest : List Char) :
    noDigHead (writeArrTail tl ++ rest) := by
  cases tl with
  | nil => exact (by decide : isDig ']' = false)
  | cons v tl2 => exact (by decide : isDig ',' = false)

theorem noDigHead_objTail (tl : JObj) (rest : List Char) :
    noDigHead (writeObjTail tl ++ rest) := by
  cases tl with
  | nil => exact (by decide : isDig cRBrace = false)
  | cons k v tl2 => exact (by decide : isDig ',' = false)

theorem numHead_conds (d : Char) (h : d = '-' ∨ isDig d = true) :
    d ≠ 'n' ∧ d ≠ 't' ∧ d ≠ 'f' ∧ d ≠ '[' ∧ d ≠ cQuote ∧ d ≠ cLBrace ∧
      (decide (d = '-') || isDig d) = true := by
  rcases h with h | h
  · subst h
    exact ⟨by decide, by decide, by decide, by decide, by decide, by decide, by decide⟩
  · refine ⟨?_, ?_, ?_, ?_, ?_, ?_, ?_⟩
    · intro e; subst e; exact absurd h (by decide)
    · intro e; subst e; exact absurd h (by decide)
    · intro e; subst e; exact absurd h (by decide)
    · intro e; subst e; exact absurd h (by decide)
    · intro e; subst e; exact absurd h (by decide)
    · intro e; subst e; exact absurd h (by decide)
    · rw [h]; simp

mutual

theorem jfuel_le_wlen (v : Json) : jfuel v ≤ (writeVal v).length := by
  cases v with
  | null => decide
  | bool b => cases b <;> decide
  | num n =>
    have := writeInt_head n
    obtain ⟨d, ds, hds, -⟩ := this
    rw [jfuel, writeVal, hds]
    simp
  | str s =>
    rw [jfuel, writeVal, writeStr]
    simp
  | arr a =>
    have h := afuel_le_wlen a
    rw [jfuel, writeVal]
    simp
    omega
  | obj o =>
    have h := ofuel_le_wlen o
    rw [jfuel, writeVal]
    simp
    omega

theorem afuel_le_wlen (a : JArr) :
    afuel a ≤ (writeArrItems a).length ∧ afuel a ≤ (writeArrTail a).length := by
  cases a with
  | nil => decide
  | cons v tl =>
    have h1 := jfuel_le_wlen v
    have h2 := afuel_le_wlen tl
    have h3 := writeVal_length_pos v
    have h4 := writeArrTail_length_pos tl
    rw [afuel, writeArrItems, writeArrTail]
    simp
    omega

theorem ofuel_le_wlen (o : JObj) :
    ofuel o ≤ (writeObjItems o).length ∧ ofuel o ≤ (writeObjTail o).length := by
  cases o with
  | nil => decide
  | cons k v tl =>
    have h1 := jfuel_le_wlen v
    have h2 := ofuel_le_wlen tl
    have h3 := writeVal_length_pos v
    have h4 := writeObjTail_length_pos tl
    rw [ofuel, writeObjItems, writeObjTail, writeStr]
    simp
    omega

end

mutual

theorem parseVal_write (v : Json) : ∀ (fuel : Nat) (rest : List Char),
    jfuel v ≤ fuel → noDigHead rest →
    parseVal fuel (writeVal v ++ rest) = some (v, rest) := by
  cases v with
  | null =>
    intro fuel rest hf hr
    obtain ⟨f, rfl⟩ : ∃ f, fuel = f + 1 := ⟨fuel - 1, by rw [jfuel] at hf; omega⟩
    rw [show writeVal Json.null ++ rest = 'n' :: 'u' :: 'l' :: 'l' :: rest from rfl]
    simp +decide [parseVal]
  | bool b =>
    intro fuel rest hf hr
    obtain ⟨f, rfl⟩ : ∃ f, fuel = f + 1 := ⟨fuel - 1, by rw [jfuel] at hf; omega⟩
    cases b with
    | true =>
      rw [show writeVal (Json.bool true) ++ rest = 't' :: 'r' :: 'u' :: 'e' :: rest from rfl]
      simp +decide [parseVal]
    | false =>
      rw [show writeVal (Json.bool false) ++ rest =
        'f' :: 'a' :: 'l' :: 's' :: 'e' :: rest from rfl]
      simp +decide [parseVal]
  | num n =>
    intro fuel rest hf hr
    obtain ⟨f, rfl⟩ : ∃ f, fuel = f + 1 := ⟨fuel - 1, by rw [jfuel] at hf; omega⟩
    obtain ⟨d, ds, hds, hdp⟩ := writeInt_head n
    obtain ⟨hn1, hn2, hn3, hn4, hn5, hn6, hn7⟩ := numHead_conds d hdp
    rw [show writeVal (Json.num n) = writeInt n from rfl, hds, List.cons_append]
    simp only [parseVal, if_neg hn1, if_neg hn2, if_neg hn3, if_neg hn4, if_neg hn5,
      if_neg hn6]
    rw [if_pos (by rw [hn7])]
    rw [show d :: (ds ++ rest) = (d :: ds) ++ rest from rfl, ← hds,
      parseNum_writeInt n rest hr]
    rfl
  | str s =>
    intro fuel rest hf hr
    obtain ⟨f, rfl⟩ : ∃ f, fuel = f + 1 := ⟨fuel - 1, by rw [jfuel] at hf; omega⟩
    rw [show writeVal (Json.str s) ++ rest =
      cQuote :: (writeStrBody s ++ (cQuote :: rest)) from by
        rw [writeVal, writeStr]; simp]
    simp +decide [parseVal, parseStrBody_write]
  | arr a =>
    intro fuel rest hf hr
    obtain ⟨f, rfl⟩ : ∃ f, fuel = f + 1 := ⟨fuel - 1, by rw [jfuel] at hf; omega⟩
    rw [show writeVal (Json.arr a) ++ rest = '[' :: (writeArrItems a ++ rest) from by
      rw [writeVal]; simp]
    simp +decide [parseVal, parseArrStart_write a f rest (by rw [jfuel] at hf; omega)]
  | obj o =>
    intro fuel rest hf hr
    obtain ⟨f, rfl⟩ : ∃ f, fuel = f + 1 := ⟨fuel - 1, by rw [jfuel] at hf; omega⟩
    rw [show writeVal (Json.obj o) ++ rest = cLBrace :: (writeObjItems o ++ rest) from by
      rw [writeVal]; simp]
    simp +decide [parseVal, parseObjStart_write o f rest (by rw [jfuel] at hf; omega)]

theorem parseArrStart_write (a : JArr) : ∀ (fuel : Nat) (rest : List Char),
    afuel a ≤ fuel →
    parseArrStart fuel (writeArrItems a ++ rest) = some (a, rest) := by
  cases a with
  | nil =>
    intro fuel rest hf
    obtain ⟨f, rfl⟩ : ∃ f, fuel = f + 1 := ⟨fuel - 1, by rw [afuel] at hf; omega⟩
    rw [show writeArrItems JArr.nil ++ rest = ']' :: rest from rfl]
    simp +decide [parseArrStart]
  | cons v tl =>
    intro fuel rest hf
    obtain ⟨f, rfl⟩ : ∃ f, fuel = f + 1 := ⟨fuel - 1, by rw [afuel] at hf; omega⟩
    rw [afuel] at hf
    obtain ⟨c, cs, hcs, hc1, -⟩ := writeVal_head v
    rw [show writeArrItems (JArr.cons v tl) ++ rest =
      writeVal v ++ (writeArrTail tl ++ rest) from by rw [writeArrItems]; simp,
      hcs, List.cons_append]
    simp only [parseArrStart, if_neg hc1]
    rw [show c :: (cs ++ (writeArrTail tl ++ rest)) =
      (c :: cs) ++ (writeArrTail tl ++ rest) from rfl, ← hcs]
    simp [parseVal_write v f _ (by omega) (noDigHead_arrTail tl rest),
      parseArrTail_write tl f rest (by omega)]

theorem parseArrTail_write (tl : JArr) : ∀ (fuel : Nat) (rest : List Char),
    afuel tl ≤ fuel →
    parseArrTail fuel (writeArrTail tl ++ rest) = some (tl, rest) := by
  cases tl with
  | nil =>
    intro fuel rest hf
    obtain ⟨f, rfl⟩ : ∃ f, fuel = f + 1 := ⟨fuel - 1, by rw [afuel] at hf; omega⟩
    rw [show writeArrTail JArr.nil ++ rest = ']' :: rest from rfl]
    simp +decide [parseArrTail]
  | cons v tl2 =>
    intro fuel rest hf
    obtain ⟨f, rfl⟩ : ∃ f, fuel = f + 1 := ⟨fuel - 1, by rw [afuel] at hf; omega⟩
    rw [afuel] at hf
    rw [show writeArrTail (JArr.cons v tl2) ++ rest =
      ',' :: (writeVal v ++ (writeArrTail tl2 ++ rest)) from by rw [writeArrTail]; simp]
    simp +decide [parseArrTail,
      parseVal_write v f _ (by omega) (noDigHead_arrTail tl2 rest),
      parseArrTail_write tl2 f rest (by omega)]

theorem parseObjStart_write (o : JObj) : ∀ (fuel : Nat) (rest : List Char),
    ofuel o ≤ fuel →
    parseObjStart fuel (writeObjItems o ++ rest) = some (o, rest) := by
  cases o with
  | nil =>
    intro fuel rest hf
    obtain ⟨f, rfl⟩ : ∃ f, fuel = f + 1 := ⟨fuel - 1, by rw [ofuel] at hf; omega⟩
    rw [show writeObjItems JObj.nil ++ rest = cRBrace :: rest from rfl]
    simp +decide [parseObjStart]
  | cons k v tl =>
    intro fuel rest hf
    obtain ⟨f, rfl⟩ : ∃ f, fuel = f + 1 := ⟨fuel - 1, by rw [ofuel] at hf; omega⟩
    rw [ofuel] at hf
    rw [show writeObjItems (JObj.cons k v tl) ++ rest =
      cQuote :: (writeStrBody k ++ (cQuote :: (':' :: (writeVal v ++
        (writeObjTail tl ++ rest))))) from by rw [writeObjItems, writeStr]; simp]
    simp +decide [parseObjStart, parseStrBody_write,
      parseVal_write v f _ (by omega) (noDigHead_objTail tl rest),
      parseObjTail_write tl f rest (by omega)]

theorem parseObjTail_write (tl : JObj) : ∀ (fuel : Nat) (rest : List Char),
    ofuel tl ≤ fuel →
    parseObjTail fuel (writeObjTail tl ++ rest) = some (tl, rest) := by
  cases tl with
  | nil =>
    intro fuel rest hf
    obtain ⟨f, rfl⟩ : ∃ f, fuel = f + 1 := ⟨fuel - 1, by rw [ofuel] at hf; omega⟩
    rw [show writeObjTail JObj.nil ++ rest = cRBrace :: rest from rfl]
    simp +decide [parseObjTail]
  | cons k v tl2 =>
    intro fuel rest hf
    obtain ⟨f, rfl⟩ : ∃ f, fuel = f + 1 := ⟨fuel - 1, by rw [ofuel] at hf; omega⟩
    rw [ofuel] at hf
    rw [show writeObjTail (JObj.cons k v tl2) ++ rest =
      ',' :: (cQuote :: (writeStrBody k ++ (cQuote :: (':' :: (writeVal v ++
        (writeObjTail tl2 ++ rest)))))) from by rw [writeObjTail, writeStr]; simp]
    simp +decide [parseObjTail, parseStrBody_write,
      parseVal_write v f _ (by omega) (noDigHead_objTail tl2 rest),
      parseObjTail_write tl2 f rest (by omega)]

end

theorem parseDoc_write (v : Json) : parseDoc (writeVal v) = some v := by
  have h1 : parseVal ((writeVal v).length + 1) (writeVal v ++ []) = some (v, []) :=
    parseVal_write v _ [] (Nat.le_trans (jfuel_le_wlen v) (by omega)) trivial
  rw [List.append_nil] at h1
  rw [parseDoc, h1]

/-- Key lookup in a JSON object, model of `QJsonObject::operator[]` (`none` stands
for the `Undefined` value returned for a missing key). -/
def JObj.lookup : JObj → Str → Option Json
  | JObj.nil, _ => none
  | JObj.cons k v tl, key => if k = key then some v else JObj.lookup tl key

/-- `QJsonValue::toString()`: the string, or an empty string for other values. -/
def jToString : Option Json → Str
  | some (Json.str s) => s
  | _ => []

/-- `QJsonValue::toBool()`: the boolean, or `false` for other values. -/
def jToBool : Option Json → Bool
  | some (Json.bool b) => b
  | _ => false

/-- `QJsonValue::toObject()`: the object, or an empty object for other values. -/
def jToObj : Option Json → JObj
  | some (Json.obj o) => o
  | _ => JObj.nil

/-- `QJsonValue::toArray()`: the array, or an empty array for other values. -/
def jToArr : Option Json → JArr
  | some (Json.arr a) => a
  | _ => JArr.nil

/-- `QJsonValue::toInt()`: the number if it is integral and representable as a
32-bit `int`, else the default `0`. -/
def jToInt : Option Json → Int
  | some (Json.num n) => if -(2 ^ 31) ≤ n ∧ n < 2 ^ 31 then n else 0
  | _ => 0

/-- `QJsonValue::toDouble()` used at integral values, and
`toVariant().toLongLong()`: the stored integer, or `0`. -/
def jToLong : Option Json → Int
  | some (Json.num n) => n
  | _ => 0

mutual

/-- The value is representable as a Qt JSON value in this model: object keys are
strictly sorted and therefore unique, the `QJsonObject` invariant. -/
def canonV : Json → Bool
  | Json.null => true
  | Json.bool _ => true
  | Json.num _ => true
  | Json.str _ => true
  | Json.arr a => canonA a
  | Json.obj o => canonO o

/-- Canonicity for arrays: every element is canonical. -/
def canonA : JArr → Bool
  | JArr.nil => true
  | JArr.cons v tl => canonV v && canonA tl

/-- Canonicity for objects: strictly sorted keys, canonical values. -/
def canonO : JObj → Bool
  | JObj.nil => true
  | JObj.cons k v tl =>
    canonV v && canonO tl &&
      (match tl with
       | JObj.nil => true
       | JObj.cons k2 _ _ => strLt k k2)

end

/-- Model of `NetworkManager::Packet` (`include/NetworkManager.h`).  The C++
`PacketType type` is an `enum class : quint8`; its numeric value is kept as a
`Nat` so that out-of-range wire values and the `static_cast`s of the source are
representable.  `HELLO = 0, PEER_LIST, GAME_START, PROGRESS_UPDATE, FINISH,
GAME_TEXT, COUNTDOWN, PLAYER_LEFT, RACE_RESULTS, READY_CHECK, READY_RESPONSE,
PLAY_AGAIN_INVITE, PLAY_AGAIN_RESPONSE, KICK = 13`. -/
structure Packet where
  ptype : Nat
  senderUuid : Str
  timestamp : Int
  payload : JObj
deriving DecidableEq

/-- The numeric values of the 14 `PacketType` enumerators. -/
def ptHELLO : Nat := 0
def ptPEER_LIST : Nat := 1
def ptGAME_START : Nat := 2
def ptPROGRESS_UPDATE : Nat := 3
def ptFINISH : Nat := 4
def ptGAME_TEXT : Nat := 5
def ptCOUNTDOWN : Nat := 6
def ptPLAYER_LEFT : Nat := 7
def ptRACE_RESULTS : Nat := 8
def ptREADY_CHECK : Nat := 9
def ptREADY_RESPONSE : Nat := 10
def ptPLAY_AGAIN_INVITE : Nat := 11
def ptPLAY_AGAIN_RESPONSE : Nat := 12
def ptKICK : Nat := 13

/-- The textual JSON document written by `Packet::serialize` before framing.
The C++ inserts the keys in the order type, sender, ts, payload, but a
`QJsonObject` stores keys sorted, so the compact document lists them in the
alphabetical order payload, sender, ts, type. -/
def Packet.serializeJson (p : Packet) : Str :=
  writeVal (Json.obj
    (JObj.cons "payload".toList (Json.obj p.payload)
    (JObj.cons "sender".toList (Json.str p.senderUuid)
    (JObj.cons "ts".toList (Json.num p.timestamp)
    (JObj.cons "type".toList (Json.num (p.ptype : Int)) JObj.nil)))))

/-- Four big-endian bytes (as characters of code < 256) of `n < 2 ^ 32`:
model of `stream << static_cast<quint32>(json.size())` with
`QDataStream`'s default big-endian byte order. -/
def be32 (n : Nat) : Str :=
  [Char.ofNat (n / 2 ^ 24 % 256), Char.ofNat (n / 2 ^ 16 % 256),
   Char.ofNat (n / 2 ^ 8 % 256), Char.ofNat (n % 256)]

/-- `Packet::serialize` (`NetworkManager.cpp` 73-90): the compact JSON document
prefixed with its length as a 4-byte big-endian `quint32`.  The cast truncates
the length modulo `2 ^ 32`. -/
def Packet.serialize (p : Packet) : Str :=
  be32 (p.serializeJson.length % 2 ^ 32) ++ p.serializeJson

/-- The big-endian 32-bit length read back by `onPeerReadyRead`. -/
def decodeLen (b0 b1 b2 b3 : Char) : Nat :=
  ((b0.toNat * 256 + b1.toNat) * 256 + b2.toNat) * 256 + b3.toNat

/-- `Packet::deserialize` (`NetworkManager.cpp` 92-104).  `Packet packet;`
default-initializes the struct: the `QString` and `QJsonObject` members become
empty, but `type` and `timestamp` are scalar members without initializers and
keep indeterminate values when the input is not a JSON object.  Those
indeterminate contents are made explicit as the `junkType` (the numeric value of
the uninitialized `quint8`-based `PacketType`) and `junkTs` parameters.
`static_cast<PacketType>(obj["type"].toInt())` wraps the `int` to the `quint8`
underlying type, hence the modulus. -/
def Packet.deserialize (junkType : Nat) (junkTs : Int) (data : Str) : Packet :=
  match parseDoc data with
  | some (Json.obj o) =>
    { ptype := (jToInt (o.lookup "type".toList) % 256).toNat
      senderUuid := jToString (o.lookup "sender".toList)
      timestamp := jToLong (o.lookup "ts".toList)
      payload := jToObj (o.lookup "payload".toList) }
  | _ =>
    { ptype := junkType, senderUuid := [], timestamp := junkTs, payload := JObj.nil }

/-- Decoding one framed packet from the wire form: read the 4-byte big-endian
length, take that many payload bytes, and deserialize them — exactly the frame
handling of `onPeerReadyRead` applied to `Packet::serialize` output. -/
def decodeFrame (junkType : Nat) (junkTs : Int) (data : Str) : Packet :=
  match data with
  | b0 :: b1 :: b2 :: b3 :: rest =>
    Packet.deserialize junkType junkTs (rest.take (decodeLen b0 b1 b2 b3))
  | _ => Packet.deserialize junkType junkTs []

theorem char_toNat_ofNat_small {n : Nat} (h : n < 256) : (Char.ofNat n).toNat = n := by
  have hv : n.isValidChar := Or.inl (by omega)
  rw [Char.ofNat, dif_pos hv]
  rfl

theorem decodeLen_be32 {n : Nat} (h : n < 2 ^ 32) :
    ∃ b0 b1 b2 b3, be32 n = [b0, b1, b2, b3] ∧ decodeLen b0 b1 b2 b3 = n := by
  refine ⟨_, _, _, _, rfl, ?_⟩
  rw [decodeLen, char_toNat_ofNat_small (by omega), char_toNat_ofNat_small (by omega),
    char_toNat_ofNat_small (by omega), char_toNat_ofNat_small (by omega)]
  omega

theorem packet_roundtrip_core (p : Packet) (junkType : Nat) (junkTs : Int)
    (htype : p.ptype < 14)
    (hsize : p.serializeJson.length < 2 ^ 32) :
    decodeFrame junkType junkTs p.serialize = p := by
  obtain ⟨b0, b1, b2, b3, hbe, hlen⟩ :=
    decodeLen_be32 (show p.serializeJson.length % 2 ^ 32 < 2 ^ 32 from Nat.mod_lt _ (by norm_num))
  rw [Packet.serialize, hbe]
  rw [show ([b0, b1, b2, b3] : Str) ++ p.serializeJson =
    b0 :: b1 :: b2 :: b3 :: p.serializeJson from rfl]
  rw [decodeFrame, hlen, Nat.mod_eq_of_lt hsize, List.take_length]
  rw [Packet.deserialize, Packet.serializeJson, parseDoc_write]
  simp +decide [JObj.lookup, jToInt, jToString, jToLong, jToObj]
  rw [if_pos (⟨by omega, by omega⟩ :
    -(2147483648 : Int) ≤ (p.ptype : Int) ∧ p.ptype < 2147483648)]
  have : ((p.ptype : Int) % 256).toNat = p.ptype := by omega
  rw [this]

theorem writeStrBody_replicate_A (n : Nat) :
    writeStrBody (List.replicate n 'A') = List.replicate n 'A' := by
  induction n with
  | zero => rfl
  | succ n ih =>
    rw [List.replicate_succ, writeStrBody, ih, show escapeChar 'A' = ['A'] from by decide]
    rfl

theorem json_length_A (n : Nat) :
    (Packet.serializeJson ⟨0, List.replicate n 'A', 0, JObj.nil⟩).length = 42 + n := by
  rw [Packet.serializeJson]
  simp [writeVal, writeObjItems, writeObjTail, writeStr, writeInt,
    show natDigits 0 = ['0'] from by decide,
    writeStrBody_replicate_A, List.length_append, List.length_replicate,
    show writeStrBody ['p', 'a', 'y', 'l', 'o', 'a', 'd'] =
      ['p', 'a', 'y', 'l', 'o', 'a', 'd'] from by decide,
    show writeStrBody ['s', 'e', 'n', 'd', 'e', 'r'] =
      ['s', 'e', 'n', 'd', 'e', 'r'] from by decide,
    show writeStrBody ['t', 's'] = ['t', 's'] from by decide,
    show writeStrBody ['t', 'y', 'p', 'e'] = ['t', 'y', 'p', 'e'] from by decide]
  omega

/-- A packet whose serialized JSON document is exactly `2 ^ 32` characters long:
the fixed structure contributes 42 characters and the sender contributes one per
character. -/
def pBig : Packet := ⟨0, List.replicate (2 ^ 32 - 42) 'A', 0, JObj.nil⟩

theorem pBig_json_length : pBig.serializeJson.length = 2 ^ 32 := by
  rw [pBig, json_length_A]
  norm_num

theorem pBig_decode_default :
    decodeFrame 0 0 pBig.serialize = ⟨0, [], 0, JObj.nil⟩ := by
  rw [Packet.serialize, pBig_json_length,
    show (2 ^ 32 : Nat) % 2 ^ 32 = 0 from by norm_num,
    show be32 0 = [Char.ofNat 0, Char.ofNat 0, Char.ofNat 0, Char.ofNat 0] from by decide,
    show ([Char.ofNat 0, Char.ofNat 0, Char.ofNat 0, Char.ofNat 0] : Str) ++
      pBig.serializeJson = Char.ofNat 0 :: Char.ofNat 0 :: Char.ofNat 0 :: Char.ofNat 0 ::
      pBig.serializeJson from rfl]
  rw [decodeFrame]
  rw [show decodeLen (Char.ofNat 0) (Char.ofNat 0) (Char.ofNat 0) (Char.ofNat 0) = 0 from
    by decide]
  rw [List.take_zero]
  rfl

/-! ## The `NetworkManager` state machine

The embedding of `NetworkManager` proper.  Each C++ member function becomes a
pure function from the state (plus the event data) to the new state and a trace
of effects; Qt signal emissions, socket writes, socket closes and timer
operations appear in the trace in program order. -/

/-- Association list with the keys kept in ascending `strLt` order: model of
`QMap<QString, α>` (sorted by key, which fixes iteration order). -/
abbrev Smap (α : Type) : Type := List (Str × α)

/-- `QMap::value` / lookup. -/
def Smap.find {α : Type} : Smap α → Str → Option α
  | [], _ => none
  | (k, v) :: tl, key => if k = key then some v else Smap.find tl key

/-- `QMap::contains`. -/
def Smap.contains {α : Type} (m : Smap α) (key : Str) : Bool :=
  (m.find key).isSome

/-- `QMap::operator[]=` / `insert`: replaces the value at an existing key, else
inserts at the sorted position. -/
def Smap.insert {α : Type} : Smap α → Str → α → Smap α
  | [], key, v => [(key, v)]
  | (k, w) :: tl, key, v =>
    if k = key then (k, v) :: tl
    else if strLt key k then (key, v) :: (k, w) :: tl
    else (k, w) :: Smap.insert tl key v

/-- `QMap::remove` / `take`: removes the entry with the given key, if any. -/
def Smap.remove {α : Type} : Smap α → Str → Smap α
  | [], _ => []
  | (k, v) :: tl, key => if k = key then tl else (k, v) :: Smap.remove tl key

/-- `QMap::size`. -/
def Smap.size {α : Type} (m : Smap α) : Nat := List.length m

/-- Model of one `PeerConnection` (`include/NetworkManager.h` 231-239) together
with the observable state of its `QTcpSocket`: `sock` is the identity of the
socket object, `connected` models `socket->state() == ConnectedState`, and
`pendingKeyProp` models the socket property `"pendingKey"` set by
`connectToPeer` (empty if the property was never set, i.e. inbound sockets). -/
structure PeerConn where
  sock : Nat
  uuid : Str
  pname : Str
  ip : Str
  port : Int
  handshakeComplete : Bool
  readBuffer : Str
  connected : Bool
  pendingKeyProp : Str
deriving DecidableEq

/-- Model of `PlayerInfo` (`include/NetworkManager.h` 250-262).  `accuracy` is a
`double` in C++; floating point is not embeddable, and no verified claim reads
it, so it is carried as an integer. -/
structure PlayerInfo where
  uuid : Str := []
  pname : Str := []
  position : Int := 0
  totalChars : Int := 0
  wpm : Int := 0
  accuracy : Int := 100
  errors : Int := 0
  finished : Bool := false
  racePosition : Int := 0
  finishTime : Int := 0
  duration : Int := 0
deriving DecidableEq

/-- Timer identities of the `QTimer` members (and of the
`QTimer::singleShot(3000, …)` in `beginCountdown`). -/
def tmrConnTimeout : Nat := 0
def tmrReadyCheck : Nat := 1
def tmrProgress : Nat := 2
def tmrCountdownShot : Nat := 3
def tmrAnnounce : Nat := 4
def tmrCleanup : Nat := 5

/-- One observable effect: a Qt signal emission, a socket write
(`socket->write(packet.serialize())`), a socket close, a timer operation, or an
outgoing TCP connection attempt.  Effects appear in program order. -/
inductive Eff where
  | authorityChanged
  | connectionChanged
  | scanningChanged
  | gameStateChanged
  | lobbyStateChanged
  | playerNameChanged
  | playersChanged
  | discoveredRoomsChanged
  | gameTextChanged
  | gameLanguageChanged
  | connectionErrorChanged
  | peersChanged
  | waitingForReadyChanged
  | allPlayersReady
  | rankingsChanged
  | playerJoined (pname : Str)
  | playerLeft (pname : Str)
  | countdownStarted (seconds : Int)
  | gameStarted
  | playerProgressUpdated (id : Str) (pname : Str) (progressNum progressDen : Int)
      (wpm : Int) (finished : Bool) (racePos : Int)
  | raceFinished
  | joinSucceeded
  | joinFailed (reason : Str)
  | connectingChanged
  | selectedInterfaceChanged
  | kicked
  | playAgainInviteReceived
  | returnedToLobby
  | sendPkt (sock : Nat) (p : Packet)
  | closeSock (sock : Nat)
  | timerStart (timer : Nat) (ms : Int)
  | timerStop (timer : Nat)
  | tcpConnect (sock : Nat) (ip : Str) (port : Int)
deriving DecidableEq

/-- The state of one `NetworkManager` instance: its member variables
(`include/NetworkManager.h` 204-285), plus `now` (the reading of
`QDateTime::currentMSecsSinceEpoch()` for the next call), `localIp` (the value
`localIpAddress()` would return, an OS query), `serverPort` (the listening
port of `m_tcpServer`, `TCP_PORT` when the server is up in these flows),
`nextSock` (a source of fresh socket identities), and `outboundPeers` (the
`PeerConnection` objects created by `connectToPeer`, which are reachable only
through their socket's `peerPtr` property until some code stores them
elsewhere). -/
structure NMState where
  m_isAuthority : Bool := false
  m_isRoomCreator : Bool := false
  m_isConnected : Bool := false
  m_isScanning : Bool := false
  m_isInGame : Bool := false
  m_isInLobby : Bool := false
  m_playerId : Str := []
  m_playerName : Str := []
  m_gameText : Str := []
  m_gameLanguage : Str := ['e', 'n']
  m_connectionError : Str := []
  m_isConnecting : Bool := false
  m_pendingJoinIp : Str := []
  m_pendingJoinPort : Int := 0
  m_selectedInterface : Str := []
  m_hostUuid : Str := []
  m_isWaitingForReady : Bool := false
  m_playersReady : Smap Bool := []
  m_peers : Smap PeerConn := []
  m_pendingConnections : List Str := []
  m_players : Smap PlayerInfo := []
  m_currentPosition : Int := 0
  m_currentTotal : Int := 0
  m_currentWpm : Int := 0
  m_localFinished : Bool := false
  m_finishedCount : Int := 0
  m_rankings : List JObj := []
  tcpServerUp : Bool := false
  now : Int := 0
  localIp : Str := []
  serverPort : Int := 52765
  nextSock : Nat := 100
  outboundPeers : List PeerConn := []
deriving DecidableEq

/-- `MAX_PLAYERS` (`include/NetworkManager.h` 201). -/
def MAX_PLAYERS : Nat := 8

/-- `createPacket` (`NetworkManager.cpp` 106-113). -/
def createPacket (st : NMState) (t : Nat) (payload : JObj) : Packet :=
  { ptype := t, senderUuid := st.m_playerId, timestamp := st.now, payload := payload }

/-- `sendToPeer` (`NetworkManager.cpp` 893-900): writes the serialized packet if
the socket is in the connected state. -/
def sendToPeer (peer : PeerConn) (pkt : Packet) : List Eff :=
  if peer.connected then [Eff.sendPkt peer.sock pkt] else []

/-- `broadcastToAllPeers` (`NetworkManager.cpp` 883-891): writes to every peer
in the map (including handshake-incomplete ones) whose socket is connected, in
key order. -/
def broadcastToAllPeers (st : NMState) (pkt : Packet) : List Eff :=
  st.m_peers.foldr (fun kv acc =>
    (if kv.2.connected then [Eff.sendPkt kv.2.sock pkt] else []) ++ acc) []

/-- `QMap::value` update at an existing key (C++ `m[key].field = v` on a map
reference), leaving the map unchanged at other keys. -/
def Smap.update {α : Type} (m : Smap α) (key : Str) (f : α → α) : Smap α :=
  m.map (fun kv => if kv.1 = key then (kv.1, f kv.2) else kv)

/-- First entry of `m_peers` (in key order) owning the given socket: the search
loops of `onPeerDisconnected` / `onPeerReadyRead`. -/
def peersFindBySock (st : NMState) (sock : Nat) : Option (Str × PeerConn) :=
  st.m_peers.find? (fun kv => kv.2.sock == sock)

/-- The `PeerConnection*` stored in the socket property `peerPtr` by
`connectToPeer` (outbound sockets only). -/
def outboundFindBySock (st : NMState) (sock : Nat) : Option PeerConn :=
  st.outboundPeers.find? (fun p => p.sock == sock)

/-- Resolving a socket to its `PeerConnection` the way `onPeerReadyRead` does:
search `m_peers` first, then fall back to the `peerPtr` property. -/
def lookupPeerObject (st : NMState) (sock : Nat) : Option PeerConn :=
  match peersFindBySock st sock with
  | some kv => some kv.2
  | none => outboundFindBySock st sock

/-- In-place mutation of the `PeerConnection` object owning a socket, applied at
its storage location (the map entry, or the `peerPtr`-only object). -/
def updatePeerObject (st : NMState) (sock : Nat) (f : PeerConn → PeerConn) : NMState :=
  { st with
    m_peers := st.m_peers.map (fun kv => if kv.2.sock == sock then (kv.1, f kv.2) else kv)
    outboundPeers := st.outboundPeers.map (fun p => if p.sock == sock then f p else p) }

/-- Removal of a `PeerConnection` object (C++ `delete peer`) from wherever it is
stored.  No socket close: `handleHello`'s keep-ours branch deletes the record
without touching the socket. -/
def dropPeerObject (st : NMState) (sock : Nat) : NMState :=
  { st with
    m_peers := st.m_peers.filter (fun kv => !(kv.2.sock == sock))
    outboundPeers := st.outboundPeers.filter (fun p => !(p.sock == sock)) }

/-- `updateAuthority` (`NetworkManager.cpp` 906-916). -/
def updateAuthority (st : NMState) : NMState × List Eff :=
  let was := st.m_isAuthority
  let st2 := { st with m_isAuthority := st.m_isRoomCreator }
  if was ≠ st2.m_isAuthority then (st2, [Eff.authorityChanged]) else (st2, [])

/-- `getPeerKey` (`NetworkManager.cpp` 667-669): `"ip:port"`. -/
def getPeerKey (ip : Str) (port : Int) : Str := ip ++ ':' :: writeInt port

/-- `sendHello` (`NetworkManager.cpp` 675-684).  The `QJsonObject` payload holds
its keys sorted: hostUuid, isRoomCreator, name, port. -/
def sendHello (st : NMState) (peer : PeerConn) : List Eff :=
  let payload :=
    JObj.cons "hostUuid".toList
      (Json.str (if st.m_hostUuid = [] then st.m_playerId else st.m_hostUuid))
    (JObj.cons "isRoomCreator".toList (Json.bool st.m_isRoomCreator)
    (JObj.cons "name".toList (Json.str st.m_playerName)
    (JObj.cons "port".toList
      (Json.num (if st.tcpServerUp = true then st.serverPort else 52765)) JObj.nil)))
  sendToPeer peer (createPacket st ptHELLO payload)

/-- `sendPeerList` (`NetworkManager.cpp` 784-813): every handshake-complete peer
except the recipient, in key order; the `selfObj` built in the source is never
appended ("Don't add self").  Each entry keeps its keys sorted: ip, name, port,
uuid. -/
def sendPeerList (st : NMState) (peer : PeerConn) : List Eff :=
  let arr := st.m_peers.foldr (fun kv acc =>
    if kv.1 = peer.uuid ∨ kv.2.handshakeComplete = false then acc
    else JArr.cons (Json.obj
      (JObj.cons "ip".toList (Json.str kv.2.ip)
      (JObj.cons "name".toList (Json.str kv.2.pname)
      (JObj.cons "port".toList (Json.num kv.2.port)
      (JObj.cons "uuid".toList (Json.str kv.2.uuid) JObj.nil))))) acc) JArr.nil
  sendToPeer peer
    (createPacket st ptPEER_LIST (JObj.cons "peers".toList (Json.arr arr) JObj.nil))

/-- `connectToPeer` (`NetworkManager.cpp` 487-532).  Returns the new state, the
effects and the C++ return value.  The new `PeerConnection` is referenced only
by the socket properties (`peerPtr`, `pendingKey`); `m_peers` is not touched. -/
def connectToPeer (st : NMState) (ip : Str) (port : Int) (uuid : Str) :
    NMState × List Eff × Bool :=
  let key := getPeerKey ip port
  if key ∈ st.m_pendingConnections then (st, [], false)
  else if uuid ≠ [] ∧ st.m_peers.contains uuid = true then (st, [], false)
  else if ip = st.localIp ∧
      port = (if st.tcpServerUp = true then st.serverPort else 52765) then (st, [], false)
  else
    let sock := st.nextSock
    let peer : PeerConn :=
      { sock := sock, uuid := uuid, pname := [], ip := ip, port := port,
        handshakeComplete := false, readBuffer := [], connected := false,
        pendingKeyProp := key }
    let st2 := { st with
      m_pendingConnections := key :: st.m_pendingConnections
      nextSock := sock + 1
      outboundPeers := st.outboundPeers ++ [peer] }
    (st2, [Eff.tcpConnect sock ip port], true)

/-- `onPeerConnected` (`NetworkManager.cpp` 534-548): the slot fires once the
socket has reached the connected state; the pending key is cleared and a HELLO
is sent. -/
def onPeerConnected (st : NMState) (sock : Nat) : NMState × List Eff :=
  match outboundFindBySock st sock with
  | none => (st, [])
  | some peer =>
    let key := peer.pendingKeyProp
    let st2 := { st with
      m_pendingConnections := st.m_pendingConnections.filter (fun k => ¬ k = key) }
    let peer2 := { peer with connected := true }
    let st3 := updatePeerObject st2 sock (fun p => { p with connected := true })
    (st3, sendHello st3 peer2)

/-- `onNewTcpConnection` (`NetworkManager.cpp` 443-481), one accepted socket:
reject at the player cap, else store the connection under the temporary key
`"pending_ip:port"` and send HELLO. -/
def acceptTcpConnection (st : NMState) (sock : Nat) (ip : Str) (port : Int) :
    NMState × List Eff :=
  if st.m_peers.size ≥ MAX_PLAYERS - 1 then (st, [Eff.closeSock sock])
  else
    let peer : PeerConn :=
      { sock := sock, uuid := [], pname := [], ip := ip, port := port,
        handshakeComplete := false, readBuffer := [], connected := true,
        pendingKeyProp := [] }
    let tempKey := "pending_".toList ++ ip ++ ':' :: writeInt port
    let st2 := { st with m_peers := st.m_peers.insert tempKey peer }
    (st2, sendHello st2 peer)

/-- `removePeer` (`NetworkManager.cpp` 650-665): close and delete the link,
remove the player record, notify. -/
def removePeer (st : NMState) (uuid : Str) : NMState × List Eff :=
  match st.m_peers.find uuid with
  | none => (st, [])
  | some peer =>
    let st2 := { st with
      m_peers := st.m_peers.remove uuid
      m_players := st.m_players.remove uuid }
    (st2, [Eff.closeSock peer.sock, Eff.playersChanged, Eff.peersChanged])

/-- `onPeerDisconnected` (`NetworkManager.cpp` 550-593).  The first loop finds
the map entry owning the socket and reads the uuid and name out of the record;
a nonempty uuid leads to `removePeer` and a `playerLeft` signal, anything else
only cleans up the pending key and the map entry.  There is no special case for
the host's link. -/
def onPeerDisconnected (st : NMState) (sock : Nat) : NMState × List Eff :=
  let found := peersFindBySock st sock
  let duuid := match found with
    | some kv => kv.2.uuid
    | none => []
  let dname := match found with
    | some kv => kv.2.pname
    | none => []
  if duuid ≠ [] then
    let (st2, e1) := removePeer st duuid
    let e2 := if dname ≠ [] then [Eff.playerLeft dname] else []
    let (st3, e3) := updateAuthority st2
    (st3, e1 ++ e2 ++ e3)
  else
    let pendingKey := match outboundFindBySock st sock with
      | some p => p.pendingKeyProp
      | none => []
    let st2 := { st with
      m_pendingConnections := st.m_pendingConnections.filter (fun k => ¬ k = pendingKey) }
    let st3 := match peersFindBySock st2 sock with
      | some kv => { st2 with m_peers := st2.m_peers.remove kv.1 }
      | none => st2
    (st3, [])

/-- The tail of `handleHello` (`NetworkManager.cpp` 741-782), after the
re-keying block, with `peer` the record the code goes on with and `e0` the
effects of the re-keying: join completion, the (re)created player record, the
notifications, `sendPeerList`, the host re-sending `GAME_TEXT` to the new
player, and `updateAuthority`. -/
def handleHelloFinish (st6 : NMState) (peer : PeerConn) (e0 : List Eff) :
    NMState × List Eff :=
  let (st7, e1) :=
    if st6.m_isConnecting = true ∧ peer.ip = st6.m_pendingJoinIp then
      ({ st6 with m_isConnecting := false, m_isInLobby := true, m_isConnected := true },
        [Eff.timerStop tmrConnTimeout, Eff.connectingChanged, Eff.lobbyStateChanged,
          Eff.connectionChanged, Eff.joinSucceeded])
    else (st6, [])
  let pi : PlayerInfo := { uuid := peer.uuid, pname := peer.pname }
  let st8 := { st7 with m_players := st7.m_players.insert peer.uuid pi }
  let e2 := [Eff.playerJoined peer.pname, Eff.playersChanged, Eff.peersChanged]
  let e3 := sendPeerList st8 peer
  let e4 :=
    if st8.m_isRoomCreator = true ∧ st8.m_gameText ≠ [] then
      sendToPeer peer (createPacket st8 ptGAME_TEXT
        (JObj.cons "language".toList (Json.str st8.m_gameLanguage)
        (JObj.cons "text".toList (Json.str st8.m_gameText) JObj.nil)))
    else []
  let (st9, e5) := updateAuthority st8
  (st9, e0 ++ e1 ++ e2 ++ e3 ++ e4 ++ e5)

/-- `handleHello` (`NetworkManager.cpp` 686-782).  The link record is completed
in place; the host uuid may be learned; then, only if the record sat in
`m_peers` under a temporary key (which happens for inbound links only — links
created by `connectToPeer` are never put into `m_peers`), it is re-keyed to the
sender uuid, with the duplicate-connection tie-break when that key is taken.
`handleHelloFinish` is the rest. -/
def handleHello (st : NMState) (sock : Nat) (pkt : Packet) : NMState × List Eff :=
  match lookupPeerObject st sock with
  | none => (st, [])
  | some _ =>
    let upd := fun p : PeerConn => { p with
      uuid := pkt.senderUuid
      pname := jToString (pkt.payload.lookup "name".toList)
      port := jToInt (pkt.payload.lookup "port".toList)
      handshakeComplete := true }
    let st1 := updatePeerObject st sock upd
    let peerHostUuid := jToString (pkt.payload.lookup "hostUuid".toList)
    let st2 :=
      if st1.m_isRoomCreator = false ∧ st1.m_hostUuid = [] ∧ peerHostUuid ≠ [] then
        { st1 with m_hostUuid := peerHostUuid }
      else st1
    let tempKey := st2.m_peers.find? (fun kv => kv.2.sock == sock && !(kv.1 == pkt.senderUuid))
    match tempKey, lookupPeerObject st2 sock with
    | some (tk, peer), _ =>
      let st3 := { st2 with m_peers := st2.m_peers.remove tk }
      match st3.m_peers.find pkt.senderUuid with
      | some existing =>
        if strLt st3.m_playerId pkt.senderUuid = true then
          -- "We initiated, keep our connection, close theirs": deletes the
          -- newly completed record (no socket close) and continues with the
          -- stored one
          handleHelloFinish (dropPeerObject st3 sock) existing []
        else
          -- "They initiated, close our connection, keep theirs"
          let st4 := { st3 with m_peers := st3.m_peers.remove existing.uuid }
          let st5 := dropPeerObject st4 existing.sock
          handleHelloFinish { st5 with m_peers := st5.m_peers.insert pkt.senderUuid peer }
            peer [Eff.closeSock existing.sock]
      | none =>
        handleHelloFinish { st3 with m_peers := st3.m_peers.insert pkt.senderUuid peer }
          peer []
    | none, some peer => handleHelloFinish st2 peer []
    | none, none =>
      let dummy : PeerConn :=
        { sock := sock, uuid := [], pname := [], ip := [], port := 0,
          handshakeComplete := false, readBuffer := [], connected := false,
          pendingKeyProp := [] }
      handleHelloFinish st2 dummy []

/-- `handlePeerList` / `connectToMissingPeers` (`NetworkManager.cpp` 815-839):
dial every listed peer that is not self and not already a key of `m_peers`. -/
def connectToMissingPeers : NMState → JArr → NMState × List Eff
  | st, JArr.nil => (st, [])
  | st, JArr.cons v tl =>
    let peerObj := jToObj (some v)
    let uuid := jToString (peerObj.lookup "uuid".toList)
    let ip := jToString (peerObj.lookup "ip".toList)
    let port := jToInt (peerObj.lookup "port".toList)
    if uuid = st.m_playerId ∨ st.m_peers.contains uuid = true then
      connectToMissingPeers st tl
    else
      match connectToPeer st ip port uuid with
      | (st2, e1, _) =>
        match connectToMissingPeers st2 tl with
        | (st3, e2) => (st3, e1 ++ e2)

/-- `handlePeerList` (`NetworkManager.cpp` 815-820). -/
def handlePeerList (st : NMState) (pkt : Packet) : NMState × List Eff :=
  connectToMissingPeers st (jToArr (pkt.payload.lookup "peers".toList))

/-- `handleGameStart` (`NetworkManager.cpp` 1228-1235). -/
def handleGameStart (st : NMState) : NMState × List Eff :=
  ({ st with m_isInGame := true },
    [Eff.gameStateChanged, Eff.gameStarted, Eff.timerStart tmrProgress 50])

/-- `handleGameText` (`NetworkManager.cpp` 1237-1249). -/
def handleGameText (st : NMState) (pkt : Packet) : NMState × List Eff :=
  let st2 := { st with m_gameText := jToString (pkt.payload.lookup "text".toList) }
  let e1 := [Eff.gameTextChanged]
  if (pkt.payload.lookup "language".toList).isSome then
    let lang := jToString (pkt.payload.lookup "language".toList)
    if st2.m_gameLanguage ≠ lang then
      ({ st2 with m_gameLanguage := lang }, e1 ++ [Eff.gameLanguageChanged])
    else (st2, e1)
  else (st2, e1)

/-- `handleCountdown` (`NetworkManager.cpp` 1251-1254). -/
def handleCountdown (st : NMState) (pkt : Packet) : NMState × List Eff :=
  (st, [Eff.countdownStarted (jToInt (pkt.payload.lookup "seconds".toList))])

/-- `handleRaceResults` (`NetworkManager.cpp` 1273-1289). -/
def jarrToObjList : JArr → List JObj
  | JArr.nil => []
  | JArr.cons v tl => jToObj (some v) :: jarrToObjList tl

/-- `handleRaceResults` (`NetworkManager.cpp` 1273-1289): store the rankings,
notify, leave the in-game state, stop the progress timer. -/
def handleRaceResults (st : NMState) (pkt : Packet) : NMState × List Eff :=
  let rankings := jarrToObjList (jToArr (pkt.payload.lookup "rankings".toList))
  let st2 := { st with m_rankings := rankings, m_isInGame := false }
  (st2, [Eff.rankingsChanged, Eff.raceFinished, Eff.gameStateChanged,
    Eff.timerStop tmrProgress])

/-- The linear ordering `checkRaceCompletion` sorts by (`std::sort` with
`a.racePosition < b.racePosition`); the model fixes insertion order, one of the
orders the unstable sort may produce. -/
def insertByRacePos (pl : PlayerInfo) : List PlayerInfo → List PlayerInfo
  | [] => [pl]
  | q :: qs =>
    if pl.racePosition < q.racePosition then pl :: q :: qs
    else q :: insertByRacePos pl qs

/-- Sorting of the player records by finish position. -/
def sortByRacePos (l : List PlayerInfo) : List PlayerInfo :=
  l.foldr insertByRacePos []

/-- `checkRaceCompletion` (`NetworkManager.cpp` 1388-1438): when every player
record is finished and this side is the authority, build the rankings (keys
sorted: accuracy, id, name, position, wpm), broadcast `RACE_RESULTS`, and end
the game state. -/
def checkRaceCompletion (st : NMState) : NMState × List Eff :=
  let allFinished := st.m_players.all (fun kv => kv.2.finished = true)
  if allFinished = true ∧ st.m_isAuthority = true then
    let sorted := sortByRacePos (st.m_players.map (fun kv => kv.2))
    let rankings : List JObj := sorted.map (fun pl =>
      JObj.cons "accuracy".toList (Json.num pl.accuracy)
      (JObj.cons "id".toList (Json.str pl.uuid)
      (JObj.cons "name".toList (Json.str pl.pname)
      (JObj.cons "position".toList (Json.num pl.racePosition)
      (JObj.cons "wpm".toList (Json.num pl.wpm) JObj.nil)))))
    let st2 := { st with m_rankings := rankings }
    let arr := rankings.foldr (fun o acc => JArr.cons (Json.obj o) acc) JArr.nil
    let pkt := createPacket st2 ptRACE_RESULTS
      (JObj.cons "rankings".toList (Json.arr arr) JObj.nil)
    let e2 := broadcastToAllPeers st2 pkt
    let st3 := { st2 with m_isInGame := false }
    (st3, [Eff.rankingsChanged] ++ e2 ++ [Eff.raceFinished, Eff.gameStateChanged,
      Eff.timerStop tmrProgress])
  else (st, [])

/-- `handlePlayerLeft` (`NetworkManager.cpp` 1256-1271). -/
def handlePlayerLeft (st : NMState) (pkt : Packet) : NMState × List Eff :=
  let uuid := jToString (pkt.payload.lookup "uuid".toList)
  let pname := jToString (pkt.payload.lookup "name".toList)
  let st2 := { st with m_players := st.m_players.remove uuid }
  let e1 := [Eff.playerLeft pname, Eff.playersChanged]
  let (st3, e2) :=
    if st2.m_peers.contains uuid = true then removePeer st2 uuid else (st2, [])
  let (st4, e3) := updateAuthority st3
  let (st5, e4) := checkRaceCompletion st4
  (st5, e1 ++ e2 ++ e3 ++ e4)

/-- `beginCountdown` (`NetworkManager.cpp` 1182-1203): broadcast
`COUNTDOWN{seconds: 3}`, notify, and schedule the 3-second single shot. -/
def beginCountdown (st : NMState) : NMState × List Eff :=
  let pkt := createPacket st ptCOUNTDOWN
    (JObj.cons "seconds".toList (Json.num 3) JObj.nil)
  (st, broadcastToAllPeers st pkt ++
    [Eff.countdownStarted 3, Eff.timerStart tmrCountdownShot 3000])

/-- The body of the 3-second `QTimer::singleShot` inside `beginCountdown`
(`NetworkManager.cpp` 1192-1202). -/
def onCountdownShot (st : NMState) : NMState × List Eff :=
  let st2 := { st with m_isInGame := true }
  (st2, [Eff.gameStateChanged] ++
    broadcastToAllPeers st2 (createPacket st2 ptGAME_START JObj.nil) ++
    [Eff.gameStarted, Eff.timerStart tmrProgress 50])

/-- `handleReadyCheck` (`NetworkManager.cpp` 1117-1137): sync text and language,
then answer with a broadcast `READY_RESPONSE`. -/
def handleReadyCheck (st : NMState) (pkt : Packet) : NMState × List Eff :=
  let text := jToString (pkt.payload.lookup "text".toList)
  let lang := jToString (pkt.payload.lookup "language".toList)
  let (st2, e1) :=
    if st.m_gameText ≠ text then
      ({ st with m_gameText := text }, [Eff.gameTextChanged])
    else (st, [])
  let (st3, e2) :=
    if st2.m_gameLanguage ≠ lang then
      ({ st2 with m_gameLanguage := lang }, [Eff.gameLanguageChanged])
    else (st2, [])
  (st3, e1 ++ e2 ++ broadcastToAllPeers st3 (createPacket st3 ptREADY_RESPONSE JObj.nil))

/-- `handleReadyResponse` (`NetworkManager.cpp` 1139-1160): host-only during a
ready check; record the sender, and begin the countdown exactly when the ready
set has reached the player count. -/
def handleReadyResponse (st : NMState) (pkt : Packet) : NMState × List Eff :=
  if ¬ (st.m_isRoomCreator = true ∧ st.m_isWaitingForReady = true) then (st, [])
  else
    let st2 := { st with m_playersReady := st.m_playersReady.insert pkt.senderUuid true }
    if st2.m_playersReady.size ≥ st2.m_players.size then
      let st3 := { st2 with m_isWaitingForReady := false }
      let (st4, e2) := beginCountdown st3
      (st4, [Eff.timerStop tmrReadyCheck, Eff.waitingForReadyChanged,
        Eff.allPlayersReady] ++ e2)
    else (st2, [])

/-- `onReadyCheckTimeout` (`NetworkManager.cpp` 1162-1180): if still waiting,
proceed with whoever responded (non-responders are only logged). -/
def onReadyCheckTimeout (st : NMState) : NMState × List Eff :=
  if st.m_isWaitingForReady = false then (st, [])
  else
    let st2 := { st with m_isWaitingForReady := false }
    let (st3, e2) := beginCountdown st2
    (st3, [Eff.waitingForReadyChanged] ++ e2)

/-- `handleProgressUpdate` (`NetworkManager.cpp` 1347-1362): update the sender's
record in place and emit `playerProgressUpdated` (the `double` progress argument
`position/totalChars` is carried as the numerator/denominator pair).  No
`playersChanged` is emitted. -/
def handleProgressUpdate (st : NMState) (pkt : Packet) : NMState × List Eff :=
  match st.m_players.find pkt.senderUuid with
  | none => (st, [])
  | some pl =>
    let pl2 := { pl with
      position := jToInt (pkt.payload.lookup "position".toList)
      totalChars := jToInt (pkt.payload.lookup "total".toList)
      wpm := jToInt (pkt.payload.lookup "wpm".toList) }
    let st2 := { st with m_players := st.m_players.insert pkt.senderUuid pl2 }
    (st2, [Eff.playerProgressUpdated pkt.senderUuid pl2.pname pl2.position pl2.totalChars
      pl2.wpm pl2.finished pl2.racePosition])

/-- `handleFinish` (`NetworkManager.cpp` 1364-1386): the first `FINISH` per
sender assigns the next race position (`accuracy` arrives as a double with
default `100.0`; integral model); duplicates fall through to
`checkRaceCompletion` only. -/
def handleFinish (st : NMState) (pkt : Packet) : NMState × List Eff :=
  match st.m_players.find pkt.senderUuid with
  | none => (st, [])
  | some pl =>
    if pl.finished = true then checkRaceCompletion st
    else
      let fc := st.m_finishedCount + 1
      let pl2 := { pl with
        finished := true
        finishTime := st.now
        racePosition := fc
        wpm := jToInt (pkt.payload.lookup "wpm".toList)
        accuracy := match pkt.payload.lookup "accuracy".toList with
          | some (Json.num n) => n
          | _ => 100 }
      let st2 := { st with
        m_finishedCount := fc
        m_players := st.m_players.insert pkt.senderUuid pl2 }
      let e1 := [Eff.playerProgressUpdated pkt.senderUuid pl2.pname 1 1 pl2.wpm true fc]
      let (st3, e2) := checkRaceCompletion st2
      (st3, e1 ++ e2)

/-- `processPacket` (`NetworkManager.cpp` 845-881): the dispatch switch.  The
switch has labels for the types 0 (`HELLO`) through 10 (`READY_RESPONSE`) only;
the types `PLAY_AGAIN_INVITE` (11), `PLAY_AGAIN_RESPONSE` (12) and `KICK` (13)
have no case and fall through with no effect. -/
def processPacket (st : NMState) (sock : Nat) (pkt : Packet) : NMState × List Eff :=
  if pkt.ptype = ptHELLO then handleHello st sock pkt
  else if pkt.ptype = ptPEER_LIST then handlePeerList st pkt
  else if pkt.ptype = ptGAME_START then handleGameStart st
  else if pkt.ptype = ptPROGRESS_UPDATE then handleProgressUpdate st pkt
  else if pkt.ptype = ptFINISH then handleFinish st pkt
  else if pkt.ptype = ptGAME_TEXT then handleGameText st pkt
  else if pkt.ptype = ptCOUNTDOWN then handleCountdown st pkt
  else if pkt.ptype = ptPLAYER_LEFT then handlePlayerLeft st pkt
  else if pkt.ptype = ptRACE_RESULTS then handleRaceResults st pkt
  else if pkt.ptype = ptREADY_CHECK then handleReadyCheck st pkt
  else if pkt.ptype = ptREADY_RESPONSE then handleReadyResponse st pkt
  else (st, [])

/-- `static_cast<int>` applied to unsigned 32-bit arithmetic: the low 32 bits
of the operand reinterpreted as a two's-complement signed value. -/
def int32 (v : Nat) : Int :=
  if v % 2 ^ 32 < 2 ^ 31 then ((v % 2 ^ 32 : Nat) : Int)
  else ((v % 2 ^ 32 : Nat) : Int) - 2 ^ 32

/-- The frame-reassembly loop of `onPeerReadyRead` (`NetworkManager.cpp`
628-647), fueled by the buffer length: read the 4-byte big-endian length
`packetSize` (a `quint32`); wait (`break`) while
`readBuffer.size() < static_cast<int>(4 + packetSize)` — the sum wraps modulo
`2^32` and the cast reinterprets it as a signed 32-bit value, compared against
the `qsizetype` buffer length — otherwise split off
`mid(4, packetSize)` (the `quint32` converts to `qsizetype` losslessly, and
`mid` clamps at the end of the buffer), `remove(0, 4 + packetSize)` — again
wrapped modulo `2^32` — deserialize (`junkType`/`junkTs` standing for the
indeterminate scalars of a failed decode) and dispatch; repeat.  There is no
length cap and no close-on-failure; for `4 + packetSize ≥ 2^31` the cast makes
the guard pass with partial data, and at `4 + packetSize ≡ 0 (mod 2^32)` the
`remove` deletes nothing, so the C++ loop never terminates — the fuel truncates
that spin, leaving the state it loops on. -/
def readLoop (junkType : Nat) (junkTs : Int) :
    Nat → NMState → Nat → NMState × List Eff
  | 0, st, _ => (st, [])
  | fuel + 1, st, sock =>
    match lookupPeerObject st sock with
    | none => (st, [])
    | some peer =>
      match peer.readBuffer with
      | b0 :: b1 :: b2 :: b3 :: restBuf =>
        let packetSize := decodeLen b0 b1 b2 b3
        if (peer.readBuffer.length : Int) < int32 (4 + packetSize) then (st, [])
        else
          let packetData := restBuf.take packetSize
          let st2 := updatePeerObject st sock
            (fun p => { p with readBuffer := p.readBuffer.drop ((4 + packetSize) % 2 ^ 32) })
          let pkt := Packet.deserialize junkType junkTs packetData
          match processPacket st2 sock pkt with
          | (st3, e1) =>
            match readLoop junkType junkTs fuel st3 sock with
            | (st4, e2) => (st4, e1 ++ e2)
      | _ => (st, [])

/-- `onPeerReadyRead` (`NetworkManager.cpp` 605-648): find the peer (map first,
then the `peerPtr` property), append the received bytes to its buffer, and run
the reassembly loop. -/
def onPeerReadyRead (junkType : Nat) (junkTs : Int) (st : NMState) (sock : Nat)
    (newData : Str) : NMState × List Eff :=
  match lookupPeerObject st sock with
  | none => (st, [])
  | some peer =>
    let buf := peer.readBuffer ++ newData
    let st2 := updatePeerObject st sock (fun p => { p with readBuffer := buf })
    readLoop junkType junkTs (buf.length + 1) st2 sock

/-- `setGameText` (`NetworkManager.cpp` 1028-1040): host-only; store, notify,
broadcast `GAME_TEXT{text, language}` (keys sorted: language, text). -/
def setGameText (st : NMState) (text : Str) : NMState × List Eff :=
  if st.m_isRoomCreator = false then (st, [])
  else
    let st2 := { st with m_gameText := text }
    let pkt := createPacket st2 ptGAME_TEXT
      (JObj.cons "language".toList (Json.str st2.m_gameLanguage)
      (JObj.cons "text".toList (Json.str text) JObj.nil))
    (st2, [Eff.gameTextChanged] ++ broadcastToAllPeers st2 pkt)

/-- `refreshGameText` (`NetworkManager.cpp` 1053-1063): host-only; `generated`
stands for the text returned by `GameBackend::getRandomText` (an external
collaborator, with the backend instance available). -/
def refreshGameText (st : NMState) (generated : Str) : NMState × List Eff :=
  if st.m_isRoomCreator = false then (st, [])
  else setGameText st generated

/-- `setGameLanguage` (`NetworkManager.cpp` 1042-1051): host-only; a changed
language auto-refreshes the text. -/
def setGameLanguage (st : NMState) (language : Str) (generated : Str) :
    NMState × List Eff :=
  if st.m_isRoomCreator = false then (st, [])
  else if st.m_gameLanguage = language then (st, [])
  else
    let st2 := { st with m_gameLanguage := language }
    let (st3, e2) := refreshGameText st2 generated
    (st3, [Eff.gameLanguageChanged] ++ e2)

/-- `startCountdown` (`NetworkManager.cpp` 1065-1115): host-only; with no peers
the ready check is skipped entirely; otherwise reset the race fields, mark the
host itself ready, broadcast `READY_CHECK{text, language}` and start the
5-second timeout. -/
def startCountdown (st : NMState) : NMState × List Eff :=
  if st.m_isRoomCreator = false then (st, [])
  else if st.m_gameText = [] then (st, [])
  else if st.m_peers = [] then beginCountdown st
  else
    let st2 := { st with
      m_finishedCount := 0
      m_localFinished := false
      m_players := st.m_players.map (fun kv : Str × PlayerInfo => (kv.1, { kv.2 with
        position := 0, totalChars := 0, wpm := 0, finished := false,
        racePosition := 0, finishTime := 0 })) }
    let st3 := { st2 with
      m_playersReady := [(st2.m_playerId, true)]
      m_isWaitingForReady := true }
    let pkt := createPacket st3 ptREADY_CHECK
      (JObj.cons "language".toList (Json.str st3.m_gameLanguage)
      (JObj.cons "text".toList (Json.str st3.m_gameText) JObj.nil))
    (st3, [Eff.playersChanged, Eff.waitingForReadyChanged] ++
      broadcastToAllPeers st3 pkt ++ [Eff.timerStart tmrReadyCheck 5000])

/-- `kickPlayer` (`NetworkManager.cpp` 1205-1222): host-only; broadcast
`PLAYER_LEFT{uuid, name}` to every connected peer — the kicked one included —
then close and remove the link.  No `KICK` packet is ever built
(`createPacket(PacketType::KICK, …)` appears nowhere in the source) and the
`kicked` signal is never emitted. -/
def kickPlayer (st : NMState) (uuid : Str) : NMState × List Eff :=
  if st.m_isRoomCreator = false then (st, [])
  else
    match st.m_peers.find uuid with
    | none => (st, [])
    | some peer =>
      let pname := peer.pname
      let pkt := createPacket st ptPLAYER_LEFT
        (JObj.cons "name".toList (Json.str pname)
        (JObj.cons "uuid".toList (Json.str uuid) JObj.nil))
      let e1 := broadcastToAllPeers st pkt
      let (st2, e2) := removePeer st uuid
      (st2, e1 ++ e2 ++ [Eff.playerLeft pname])

/-- `updateProgress` (`NetworkManager.cpp` 1295-1306): store the local counters
and update the local player record in place.  No notification of any kind is
emitted. -/
def updateProgress (st : NMState) (position totalChars wpm : Int) :
    NMState × List Eff :=
  let st2 := { st with
    m_currentPosition := position
    m_currentTotal := totalChars
    m_currentWpm := wpm }
  if st2.m_players.contains st2.m_playerId = true then
    ({ st2 with m_players := st2.m_players.update st2.m_playerId (fun pl =>
      { pl with position := position, totalChars := totalChars, wpm := wpm }) }, [])
  else (st2, [])

/-- `finishRace` (`NetworkManager.cpp` 1308-1332; the definition takes
`(wpm, accuracy, errors)` — three parameters, `errors` unused): mark the local
player finished, broadcast `FINISH{accuracy, position, wpm}` (sorted keys), and
re-check completion.  `accuracy` is a double in C++; integral model. -/
def finishRace (st : NMState) (wpm accuracy errors : Int) : NMState × List Eff :=
  let fc := st.m_finishedCount + 1
  let st2 := { st with m_localFinished := true, m_finishedCount := fc }
  let st3 :=
    if st2.m_players.contains st2.m_playerId = true then
      { st2 with m_players := st2.m_players.update st2.m_playerId (fun pl =>
        { pl with
          finished := true
          finishTime := st2.now
          racePosition := fc
          wpm := wpm
          accuracy := accuracy }) }
    else st2
  let pkt := createPacket st3 ptFINISH
    (JObj.cons "accuracy".toList (Json.num accuracy)
    (JObj.cons "position".toList (Json.num fc)
    (JObj.cons "wpm".toList (Json.num wpm) JObj.nil)))
  let e1 := broadcastToAllPeers st3 pkt
  let (st4, e2) := checkRaceCompletion st3
  (st4, e1 ++ e2)

/-- `sendProgressUpdate` (`NetworkManager.cpp` 1334-1345): the 50 ms progress
timer body; broadcast `PROGRESS_UPDATE{finished, position, total, wpm}` (sorted
keys) while in game. -/
def sendProgressUpdate (st : NMState) : NMState × List Eff :=
  if st.m_isInGame = false then (st, [])
  else
    let pkt := createPacket st ptPROGRESS_UPDATE
      (JObj.cons "finished".toList (Json.bool st.m_localFinished)
      (JObj.cons "position".toList (Json.num st.m_currentPosition)
      (JObj.cons "total".toList (Json.num st.m_currentTotal)
      (JObj.cons "wpm".toList (Json.num st.m_currentWpm) JObj.nil))))
    (st, broadcastToAllPeers st pkt)

/-- `createRoom` (`NetworkManager.cpp` 922-950); `bindOk` stands for the success
of `QTcpServer::listen`.  On success the creator marks itself host, records
itself as a player, and starts announcing (the announce timer; the datagram
itself is discovery-side and outside the verified claims). -/
def createRoom (st : NMState) (bindOk : Bool) : NMState × List Eff × Bool :=
  if st.m_isInLobby = true ∨ st.m_isConnected = true then (st, [], false)
  else if bindOk = false then
    ({ st with m_connectionError := "Failed to start server".toList },
      [Eff.connectionErrorChanged], false)
  else
    let st2 := { st with
      tcpServerUp := true
      m_isInLobby := true
      m_isConnected := true
      m_isRoomCreator := true
      m_isAuthority := true
      m_hostUuid := st.m_playerId
      m_players := st.m_players.insert st.m_playerId
        ({ uuid := st.m_playerId, pname := st.m_playerName } : PlayerInfo) }
    (st2, [Eff.timerStart tmrAnnounce 1000, Eff.lobbyStateChanged,
      Eff.connectionChanged, Eff.authorityChanged, Eff.playersChanged], true)

/-- Modelled from the spec: `sendPlayAgainInvite` is declared in
`include/NetworkManager.h` (116) but has no definition anywhere in the
repository sources.  Spec §4.5: every host-only entry point is a no-op unless
`selfPeerID == HostID`, and on invite the host broadcasts `PLAY_AGAIN_INVITE`
(§4.1/§6: empty payload). -/
def sendPlayAgainInvite (st : NMState) : NMState × List Eff :=
  if st.m_playerId ≠ st.m_hostUuid then (st, [])
  else (st, broadcastToAllPeers st (createPacket st ptPLAY_AGAIN_INVITE JObj.nil))

/-! ## Concrete scenario states used by the claim theorems -/

/-- An outbound link object right after `connectToPeer` dialed the host
(`joinRoom` flow): no uuid yet, not in `m_peers`, reachable via `peerPtr`. -/
def peerH0 : PeerConn :=
  { sock := 7, uuid := [], pname := [], ip := "10.0.0.2".toList, port := 52765,
    handshakeComplete := false, readBuffer := [], connected := true,
    pendingKeyProp := "10.0.0.2:52765".toList }

/-- A guest mid-join: it dialed the host (socket 7) and waits for the HELLO. -/
def stC1 : NMState :=
  { m_playerId := "aaaa".toList, m_playerName := "Alice".toList,
    m_isConnecting := true, m_pendingJoinIp := "10.0.0.2".toList,
    m_pendingJoinPort := 52765, tcpServerUp := true,
    localIp := "10.0.0.1".toList, nextSock := 8,
    m_pendingConnections := ["10.0.0.2:52765".toList],
    outboundPeers := [peerH0],
    m_players := [("aaaa".toList, { uuid := "aaaa".toList, pname := "Alice".toList })] }

/-- The host's HELLO as received by the guest. -/
def helloH : Packet :=
  { ptype := ptHELLO, senderUuid := "hhhh".toList, timestamp := 5,
    payload :=
      JObj.cons "hostUuid".toList (Json.str "hhhh".toList)
      (JObj.cons "isRoomCreator".toList (Json.bool true)
      (JObj.cons "name".toList (Json.str "Host".toList)
      (JObj.cons "port".toList (Json.num 52765) JObj.nil))) }

/-- A registered, handshake-complete link to the host at a guest. -/
def peerHostIn : PeerConn :=
  { sock := 3, uuid := "hhhh".toList, pname := "Host".toList, ip := "10.0.0.2".toList,
    port := 52765, handshakeComplete := true, readBuffer := [], connected := true,
    pendingKeyProp := [] }

/-- A guest in the host's lobby whose link to the host is registered under the
host's uuid (`m_hostUuid = "hhhh"`). -/
def stC2 : NMState :=
  { m_playerId := "bbbb".toList, m_playerName := "Bob".toList,
    m_isInLobby := true, m_isConnected := true, m_hostUuid := "hhhh".toList,
    m_gameText := "hello".toList, tcpServerUp := true, localIp := "10.0.0.3".toList,
    m_peers := [("hhhh".toList, peerHostIn)],
    m_players := [("bbbb".toList, { uuid := "bbbb".toList, pname := "Bob".toList }),
      ("hhhh".toList, { uuid := "hhhh".toList, pname := "Host".toList })] }

/-- Peer records of a three-player room at the host. -/
def peerB5 : PeerConn :=
  { sock := 5, uuid := "bbbb".toList, pname := "Bob".toList, ip := "10.0.0.3".toList,
    port := 52765, handshakeComplete := true, readBuffer := [], connected := true,
    pendingKeyProp := [] }

/-- Second guest of the three-player room. -/
def peerC6 : PeerConn :=
  { sock := 6, uuid := "cccc".toList, pname := "Cat".toList, ip := "10.0.0.4".toList,
    port := 52765, handshakeComplete := true, readBuffer := [], connected := true,
    pendingKeyProp := [] }

/-- The host of a three-player room (itself, Bob, Cat). -/
def stC3 : NMState :=
  { m_playerId := "hhhh".toList, m_playerName := "Host".toList,
    m_isRoomCreator := true, m_isAuthority := true, m_isInLobby := true,
    m_isConnected := true, m_hostUuid := "hhhh".toList, tcpServerUp := true,
    localIp := "10.0.0.2".toList,
    m_peers := [("bbbb".toList, peerB5), ("cccc".toList, peerC6)],
    m_players := [("bbbb".toList, { uuid := "bbbb".toList, pname := "Bob".toList }),
      ("cccc".toList, { uuid := "cccc".toList, pname := "Cat".toList }),
      ("hhhh".toList, { uuid := "hhhh".toList, pname := "Host".toList })] }

/-- A registered, handshake-complete peer with an empty read buffer. -/
def peerP4 : PeerConn :=
  { sock := 4, uuid := "pppp".toList, pname := "Pat".toList, ip := "10.0.0.9".toList,
    port := 52765, handshakeComplete := true, readBuffer := [], connected := true,
    pendingKeyProp := [] }

/-- A participant holding one registered link, used for the framing claims. -/
def stC4 : NMState :=
  { m_playerId := "qqqq".toList, m_isInLobby := true, m_isConnected := true,
    m_hostUuid := "qqqq".toList, tcpServerUp := true, localIp := "10.0.0.8".toList,
    m_peers := [("pppp".toList, peerP4)],
    m_players := [("pppp".toList, { uuid := "pppp".toList, pname := "Pat".toList }),
      ("qqqq".toList, { uuid := "qqqq".toList, pname := "Q".toList })] }

/-- A complete frame whose four payload bytes are not JSON. -/
def c4frame : Str := be32 4 ++ "xxxx".toList

/-- A frame start whose length prefix (1000000) far exceeds the available data. -/
def c4frame2 : Str := be32 1000000 ++ "abcd".toList

/-- Simultaneous dial, the outbound side: the link A (`"aaaa"`) initiated to B. -/
def peerOutB : PeerConn :=
  { sock := 10, uuid := [], pname := [], ip := "10.0.0.2".toList, port := 52765,
    handshakeComplete := false, readBuffer := [], connected := true,
    pendingKeyProp := "10.0.0.2:52765".toList }

/-- Simultaneous dial, the inbound side: the link B initiated to A, stored under
its temporary key. -/
def peerInB : PeerConn :=
  { sock := 11, uuid := [], pname := [], ip := "10.0.0.2".toList, port := 40001,
    handshakeComplete := false, readBuffer := [], connected := true,
    pendingKeyProp := [] }

/-- Participant A (`"aaaa"`, lexicographically smaller than `"bbbb"`) while both
links of a simultaneous dial exist. -/
def stC5 : NMState :=
  { m_playerId := "aaaa".toList, m_playerName := "Alice".toList,
    m_isRoomCreator := true, m_isAuthority := true, m_isInLobby := true,
    m_isConnected := true, m_hostUuid := "aaaa".toList, tcpServerUp := true,
    localIp := "10.0.0.1".toList, nextSock := 12,
    m_peers := [("pending_10.0.0.2:40001".toList, peerInB)],
    outboundPeers := [peerOutB],
    m_players := [("aaaa".toList, { uuid := "aaaa".toList, pname := "Alice".toList })] }

/-- B's HELLO (sent on both links of the simultaneous dial). -/
def helloB : Packet :=
  { ptype := ptHELLO, senderUuid := "bbbb".toList, timestamp := 6,
    payload :=
      JObj.cons "hostUuid".toList (Json.str "aaaa".toList)
      (JObj.cons "isRoomCreator".toList (Json.bool false)
      (JObj.cons "name".toList (Json.str "Bob".toList)
      (JObj.cons "port".toList (Json.num 52765) JObj.nil))) }

/-- The host of `stC3` with a race text set: ready-check scenario. -/
def stC7 : NMState := { stC3 with m_gameText := "hi there".toList }

/-- A `READY_RESPONSE` from Bob. -/
def rrB : Packet :=
  { ptype := ptREADY_RESPONSE, senderUuid := "bbbb".toList, timestamp := 9,
    payload := JObj.nil }

/-- A `READY_RESPONSE` from Cat. -/
def rrC : Packet :=
  { ptype := ptREADY_RESPONSE, senderUuid := "cccc".toList, timestamp := 9,
    payload := JObj.nil }

/-- A guest (`selfPeerID = "gggg" ≠ HostID = "hhhh"`). -/
def stC8 : NMState :=
  { m_playerId := "gggg".toList, m_hostUuid := "hhhh".toList, m_isInLobby := true,
    m_isConnected := true, m_gameText := "txt".toList, tcpServerUp := true,
    m_peers := [("hhhh".toList, peerHostIn)],
    m_players := [("gggg".toList, { uuid := "gggg".toList }),
      ("hhhh".toList, { uuid := "hhhh".toList })] }

/-- The guest `stC8` during a race. -/
def stC9 : NMState := { stC8 with m_isInGame := true }

/-- A `PROGRESS_UPDATE` from the host, as `stC9` would receive it. -/
def puH : Packet :=
  { ptype := ptPROGRESS_UPDATE, senderUuid := "hhhh".toList, timestamp := 9,
    payload :=
      JObj.cons "finished".toList (Json.bool false)
      (JObj.cons "position".toList (Json.num 3)
      (JObj.cons "total".toList (Json.num 10)
      (JObj.cons "wpm".toList (Json.num 55) JObj.nil))) }

/-- C1: the claim fails on the code for outbound links.  At the failing input —
a guest that dialed the host and processes the host's HELLO on that link — the
handshake is marked complete and the player record appears, but `m_peers` stays
empty: `handleHello` inserts a link under the sender uuid only when the link sat
under a temporary key, and links created by `connectToPeer` are never put into
`m_peers` at all. -/
theorem C1_outbound_link_not_registered :
    (handleHello stC1 7 helloH).1.m_peers = [] ∧
    outboundFindBySock (handleHello stC1 7 helloH).1 7 =
      some { peerH0 with
        uuid := "hhhh".toList
        pname := "Host".toList
        handshakeComplete := true } ∧
    (handleHello stC1 7 helloH).1.m_players.contains "hhhh".toList = true ∧
    Eff.joinSucceeded ∈ (handleHello stC1 7 helloH).2 := by decide

/-- C2, counterexample: the link that closes at `stC2` is the host's
(`peerHostIn.uuid = m_hostUuid`), yet `onPeerDisconnected` leaves the room
alive — still in lobby, still connected, no connection error set or signalled —
and only removes the player, exactly as for a non-host peer. -/
theorem C2_counterexample :
    peerHostIn.uuid = stC2.m_hostUuid ∧
    (onPeerDisconnected stC2 3).1.m_isInLobby = true ∧
    (onPeerDisconnected stC2 3).1.m_isConnected = true ∧
    (onPeerDisconnected stC2 3).1.m_connectionError = [] ∧
    (onPeerDisconnected stC2 3).2 =
      [Eff.closeSock 3, Eff.playersChanged, Eff.peersChanged,
        Eff.playerLeft "Host".toList] := by decide

/-- C3: the claim is the documented intent (`PacketType::KICK`, the declared
`handleKick`, the `kicked()` signal "Emitted when this player is kicked by
host"), but the code never realizes it.  At the failing input — the host of
`stC3` kicks Bob — no `KICK` packet is sent to anyone; instead the
`PLAYER_LEFT{name, uuid}` broadcast reaches the kicked peer itself (socket 5)
before the link closes, and `kicked` is never emitted.  Moreover `processPacket`
has no `KICK` case, so even a hand-crafted `KICK` packet would be dropped with
no effect by every receiver. -/
theorem C3_kick_never_sent :
    ((kickPlayer stC3 "bbbb".toList).2.all (fun e =>
      match e with
      | Eff.sendPkt _ p => decide (p.ptype ≠ ptKICK)
      | _ => true) = true) ∧
    Eff.kicked ∉ (kickPlayer stC3 "bbbb".toList).2 ∧
    Eff.sendPkt 5 (createPacket stC3 ptPLAYER_LEFT
      (JObj.cons "name".toList (Json.str "Bob".toList)
      (JObj.cons "uuid".toList (Json.str "bbbb".toList) JObj.nil))) ∈
        (kickPlayer stC3 "bbbb".toList).2 ∧
    Eff.closeSock 5 ∈ (kickPlayer stC3 "bbbb".toList).2 ∧
    (∀ (st : NMState) (sock : Nat) (sender : Str) (ts : Int) (payload : JObj),
      processPacket st sock
        { ptype := ptKICK, senderUuid := sender, timestamp := ts,
          payload := payload } = (st, [])) := by
  refine ⟨by decide, by decide, by decide, by decide, ?_⟩
  intro st sock sender ts payload
  rfl

/-- C4, counterexample: a complete frame whose payload `"xxxx"` fails to decode
does not close the link — the peer stays registered and not a single effect (in
particular no socket close) is produced; likewise a length prefix of 1000000
with only four payload bytes available simply waits for more data. -/
theorem C4_counterexample :
    (onPeerReadyRead 99 0 stC4 4 c4frame).1.m_peers.contains "pppp".toList = true ∧
    (onPeerReadyRead 99 0 stC4 4 c4frame).2 = [] ∧
    (onPeerReadyRead 99 0 stC4 4 c4frame2).1.m_peers.contains "pppp".toList = true ∧
    (onPeerReadyRead 99 0 stC4 4 c4frame2).2 = [] := by decide

/-- C5: the claim fails on the code.  At the failing input — A (`"aaaa"`,
lexicographically smaller) and B (`"bbbb"`) dialed simultaneously, and A
processes B's HELLO on both links in either order — the single registered link
that survives at A is socket 11, the link **B** initiated (the inbound one), not
the link A initiated (socket 10, which is never registered at all because
`connectToPeer` links never enter `m_peers`), and no socket is closed by either
processing step.  The tie-break branch of `handleHello` is unreachable in this
scenario. -/
theorem C5_survivor_is_remote_initiated_link :
    ((handleHello (handleHello stC5 10 helloB).1 11 helloB).1.m_peers.map
        (fun kv => (kv.1, kv.2.sock)) = [("bbbb".toList, 11)]) ∧
    (((handleHello stC5 10 helloB).2 ++
        (handleHello (handleHello stC5 10 helloB).1 11 helloB).2).all (fun e =>
      match e with
      | Eff.closeSock _ => false
      | _ => true) = true) ∧
    ((handleHello (handleHello stC5 11 helloB).1 10 helloB).1.m_peers.map
        (fun kv => (kv.1, kv.2.sock)) = [("bbbb".toList, 11)]) ∧
    (((handleHello stC5 11 helloB).2 ++
        (handleHello (handleHello stC5 11 helloB).1 10 helloB).2).all (fun e =>
      match e with
      | Eff.closeSock _ => false
      | _ => true) = true) := by decide

theorem Smap.find_insert_self {α : Type} (m : Smap α) (k : Str) (v : α) :
    (m.insert k v).find k = some v := by
  induction m with
  | nil => simp [Smap.insert, Smap.find]
  | cons kv tl ih =>
    by_cases h1 : kv.1 = k
    · simp [Smap.insert, h1, Smap.find]
    · by_cases h2 : strLt k kv.1 = true
      · simp [Smap.insert, h1, h2, Smap.find]
      · simp [Smap.insert, h1, h2, Smap.find, ih]

/-- C7: the ready-check protocol of the host.  (1) `startCountdown` with a text
and at least one peer makes the host implicitly ready (`m_playersReady` holds
exactly the host) and arms the 5-second timer; (2) `handleReadyResponse`
records the sender in the ready set, and begins the countdown — and stops the
timer — exactly when the updated ready set has reached the player count; (3)
the timeout begins the countdown regardless of how many responded, so missing
responders never prevent it; (4) a timeout after the check completed does
nothing. -/
theorem C7_ready_check_protocol :
    (∀ st : NMState, st.m_isRoomCreator = true → st.m_gameText ≠ [] →
      st.m_peers ≠ [] →
      (startCountdown st).1.m_playersReady = [(st.m_playerId, true)] ∧
      (startCountdown st).1.m_isWaitingForReady = true ∧
      Eff.timerStart tmrReadyCheck 5000 ∈ (startCountdown st).2) ∧
    (∀ (st : NMState) (pkt : Packet), st.m_isRoomCreator = true →
      st.m_isWaitingForReady = true →
      (handleReadyResponse st pkt).1.m_playersReady.find pkt.senderUuid =
        some true ∧
      (Eff.countdownStarted 3 ∈ (handleReadyResponse st pkt).2 ↔
        (st.m_playersReady.insert pkt.senderUuid true).size ≥ st.m_players.size) ∧
      (Eff.timerStop tmrReadyCheck ∈ (handleReadyResponse st pkt).2 ↔
        (st.m_playersReady.insert pkt.senderUuid true).size ≥ st.m_players.size)) ∧
    (∀ st : NMState, st.m_isWaitingForReady = true →
      Eff.countdownStarted 3 ∈ (onReadyCheckTimeout st).2) ∧
    (∀ st : NMState, st.m_isWaitingForReady = false →
      onReadyCheckTimeout st = (st, [])) := by
  refine ⟨?_, ?_, ?_, ?_⟩
  · intro st h1 h2 h3
    rw [startCountdown]
    simp [h1, h2, h3, beginCountdown]
  · intro st pkt h1 h2
    rw [handleReadyResponse]
    simp only [h1, h2, and_self, not_true_eq_false, if_false]
    by_cases hsz :
      (st.m_playersReady.insert pkt.senderUuid true).size ≥ st.m_players.size
    · simp [hsz, beginCountdown, Smap.find_insert_self]
    · simp [hsz, Smap.find_insert_self]
  · intro st h1
    rw [onReadyCheckTimeout]
    simp [h1, beginCountdown]
  · intro st h1
    rw [onReadyCheckTimeout]
    simp [h1]

/-- C7, witness: the protocol theorem applied to the concrete host `stC7` (two
peers): after `startCountdown` only the host is ready and the timer is armed;
Bob's response does not start the countdown (2 of 3), Cat's does. -/
theorem C7_ready_check_witness :
    (stC7.m_isRoomCreator = true ∧ stC7.m_gameText ≠ [] ∧ stC7.m_peers ≠ []) ∧
    (startCountdown stC7).1.m_playersReady = [(stC7.m_playerId, true)] ∧
    Eff.timerStart tmrReadyCheck 5000 ∈ (startCountdown stC7).2 ∧
    (Eff.countdownStarted 3 ∈
      (handleReadyResponse (startCountdown stC7).1 rrB).2 ↔
      ((startCountdown stC7).1.m_playersReady.insert rrB.senderUuid true).size ≥
        (startCountdown stC7).1.m_players.size) ∧
    Eff.countdownStarted 3 ∈ (onReadyCheckTimeout (startCountdown stC7).1).2 :=
  ⟨⟨by decide, by decide, by decide⟩,
    (C7_ready_check_protocol.1 stC7 (by decide) (by decide) (by decide)).1,
    (C7_ready_check_protocol.1 stC7 (by decide) (by decide) (by decide)).2.2,
    (C7_ready_check_protocol.2.1 (startCountdown stC7).1 rrB (by decide)
      (by decide)).2.1,
    C7_ready_check_protocol.2.2.1 (startCountdown stC7).1 (by decide)⟩

/-- C8: every host-only entry point is a no-op — no state field changes, no
packet and no signal is produced — on a participant whose own PeerID differs
from the HostID.  The code guards on `m_isRoomCreator`; the hypothesis `hlink`
is the invariant tying that flag to the HostID (`createRoom` sets
`m_hostUuid := m_playerId` together with `m_isRoomCreator := true`, and both
are cleared together), from which the guard follows.  `sendPlayAgainInvite` is
modelled from the spec (no definition exists in the repository) and is gated on
`selfPeerID = HostID` directly. -/
theorem C8_host_only_guards (st : NMState) (text generated uuid : Str)
    (hguest : st.m_playerId ≠ st.m_hostUuid)
    (hlink : st.m_isRoomCreator = true → st.m_hostUuid = st.m_playerId) :
    setGameText st text = (st, []) ∧
    refreshGameText st generated = (st, []) ∧
    startCountdown st = (st, []) ∧
    kickPlayer st uuid = (st, []) ∧
    sendPlayAgainInvite st = (st, []) := by
  have hrc : st.m_isRoomCreator = false := by
    cases h : st.m_isRoomCreator
    · rfl
    · exact absurd (hlink h).symm hguest
  refine ⟨?_, ?_, ?_, ?_, ?_⟩
  · rw [setGameText, if_pos hrc]
  · rw [refreshGameText, if_pos hrc]
  · rw [startCountdown, if_pos hrc]
  · rw [kickPlayer, if_pos hrc]
  · rw [sendPlayAgainInvite, if_pos hguest]

/-- C8, witness: the guard theorem applied to the concrete guest `stC8`. -/
theorem C8_host_only_guards_witness :
    (stC8.m_playerId ≠ stC8.m_hostUuid) ∧
    setGameText stC8 "zz".toList = (stC8, []) ∧
    kickPlayer stC8 "hhhh".toList = (stC8, []) ∧
    sendPlayAgainInvite stC8 = (stC8, []) :=
  ⟨by decide,
    (C8_host_only_guards stC8 "zz".toList [] "hhhh".toList (by decide)
      (by decide)).1,
    (C8_host_only_guards stC8 "zz".toList [] "hhhh".toList (by decide)
      (by decide)).2.2.2.1,
    (C8_host_only_guards stC8 "zz".toList [] "hhhh".toList (by decide)
      (by decide)).2.2.2.2⟩

/-- C9, counterexample: `updateProgress` mutates the local player record in the
registry (position 0 → 5) yet emits nothing at all — no `playersChanged`.  The
claim "every mutation emits a playersChanged notification" fails on the code. -/
theorem C9_counterexample :
    (updateProgress stC9 5 10 60).1.m_players ≠ stC9.m_players ∧
    (updateProgress stC9 5 10 60).2 = [] ∧
    (handleProgressUpdate stC9 puH).1.m_players ≠ stC9.m_players ∧
    Eff.playersChanged ∉ (handleProgressUpdate stC9 puH).2 := by decide

/-- C9, amended: the membership and reset mutations of the registry — creation
in `handleHello`, removal in `removePeer` and `handlePlayerLeft`, and the
between-races reset in `startCountdown` (multiplayer branch) — emit
`playersChanged`, but the per-field progress and finish mutations do not:
`updateProgress` emits nothing at all, `handleProgressUpdate` emits only
`playerProgressUpdated`, and `handleFinish` never emits `playersChanged` (only
`playerProgressUpdated` and the race-completion signals). -/
theorem C9_membership_mutations_notify :
    (∀ (st : NMState) (pos tot wpm : Int),
      (updateProgress st pos tot wpm).2 = []) ∧
    (∀ (st : NMState) (pkt : Packet),
      Eff.playersChanged ∉ (handleProgressUpdate st pkt).2) ∧
    (∀ (st : NMState) (uuid : Str) (peer : PeerConn),
      st.m_peers.find uuid = some peer →
      Eff.playersChanged ∈ (removePeer st uuid).2) ∧
    (∀ (st : NMState) (pkt : Packet),
      Eff.playersChanged ∈ (handlePlayerLeft st pkt).2) ∧
    (∀ (st : NMState) (sock : Nat) (pkt : Packet) (p : PeerConn),
      lookupPeerObject st sock = some p →
      Eff.playersChanged ∈ (handleHello st sock pkt).2) ∧
    (∀ (st : NMState) (pkt : Packet),
      Eff.playersChanged ∉ (handleFinish st pkt).2) ∧
    (∀ st : NMState, st.m_isRoomCreator = true → st.m_gameText ≠ [] →
      st.m_peers ≠ [] → Eff.playersChanged ∈ (startCountdown st).2) := by
  have hb : ∀ (s : NMState) (p : Packet),
      Eff.playersChanged ∉ broadcastToAllPeers s p := by
    intro s p
    rw [broadcastToAllPeers]
    generalize s.m_peers = l
    induction l with
    | nil => simp
    | cons kv tl ih =>
      simp only [List.foldr_cons]
      intro h
      rcases List.mem_append.mp h with h | h
      · split at h <;> simp_all
      · exact ih h
  have hcrc : ∀ s : NMState, Eff.playersChanged ∉ (checkRaceCompletion s).2 := by
    intro s
    rw [checkRaceCompletion]
    split
    · simp [hb]
    · simp
  refine ⟨?_, ?_, ?_, ?_, ?_, ?_, ?_⟩
  · intro st pos tot wpm
    rw [updateProgress]
    split <;> rfl
  · intro st pkt
    rw [handleProgressUpdate]
    split
    · simp
    · simp
  · intro st uuid peer h
    rw [removePeer, h]
    simp
  · intro st pkt
    rw [handlePlayerLeft]
    simp
  · intro st sock pkt p h
    have hfin : ∀ (a : NMState) (b : PeerConn) (c : List Eff),
        Eff.playersChanged ∈ (handleHelloFinish a b c).2 := by
      intro a b c
      rw [handleHelloFinish]
      split
      all_goals simp
    rw [handleHello, h]
    simp only []
    repeat' first | apply hfin | split_ifs | split
  · intro st pkt
    rw [handleFinish]
    split
    · simp
    · split_ifs with hf
      · exact hcrc st
      · intro h
        rcases List.mem_append.mp h with h | h
        · simp at h
        · exact hcrc _ h
  · intro st h1 h2 h3
    rw [startCountdown]
    rw [if_neg (by simp [h1]), if_neg h2, if_neg h3]
    simp

/-- C9, witness for the amended statement, at the concrete states. -/
theorem C9_membership_witness :
    (updateProgress stC9 5 10 60).2 = [] ∧
    Eff.playersChanged ∉ (handleProgressUpdate stC9 puH).2 ∧
    (stC3.m_peers.find "bbbb".toList = some peerB5 ∧
      Eff.playersChanged ∈ (removePeer stC3 "bbbb".toList).2) ∧
    (lookupPeerObject stC1 7 = some peerH0 ∧
      Eff.playersChanged ∈ (handleHello stC1 7 helloH).2) ∧
    Eff.playersChanged ∉ (handleFinish stC9 puH).2 ∧
    (stC7.m_isRoomCreator = true ∧ stC7.m_gameText ≠ [] ∧ stC7.m_peers ≠ [] ∧
      Eff.playersChanged ∈ (startCountdown stC7).2) :=
  ⟨C9_membership_mutations_notify.1 stC9 5 10 60,
    C9_membership_mutations_notify.2.1 stC9 puH,
    ⟨by decide,
      C9_membership_mutations_notify.2.2.1 stC3 "bbbb".toList peerB5 (by decide)⟩,
    ⟨by decide,
      C9_membership_mutations_notify.2.2.2.2.1 stC1 7 helloH peerH0 (by decide)⟩,
    C9_membership_mutations_notify.2.2.2.2.2.1 stC9 puH,
    ⟨by decide, by decide, by decide,
      C9_membership_mutations_notify.2.2.2.2.2.2 stC7 (by decide) (by decide)
        (by decide)⟩⟩
/-- `QJsonDocument::fromJson(…).isObject()` on an input: whether the bytes parse
as a complete JSON document whose value is an object. -/
def docIsObject (data : Str) : Bool :=
  match parseDoc data with
  | some (Json.obj _) => true
  | _ => false

/-- On any input that is not a JSON-object document, `Packet::deserialize`
returns early with the default-initialized struct: empty sender and payload,
and the indeterminate scalars. -/
theorem deserialize_not_object (junkType : Nat) (junkTs : Int) (data : Str)
    (h : docIsObject data = false) :
    Packet.deserialize junkType junkTs data =
      { ptype := junkType, senderUuid := [], timestamp := junkTs,
        payload := JObj.nil } := by
  rw [docIsObject] at h
  rw [Packet.deserialize]
  cases hp : parseDoc data with
  | none => rfl
  | some v =>
    cases v with
    | obj o => rw [hp] at h; simp at h
    | null => rfl
    | bool b => rfl
    | num n => rfl
    | str s => rfl
    | arr a => rfl

/-- C10, counterexample: the claim promises the fixed default packet — type
`HELLO` (0), zero timestamp — but `Packet packet;` leaves `type` and
`timestamp` default-initialized (indeterminate): when the indeterminate type
byte is, say, 4 (`FINISH`), the result of deserializing the malformed input
`"xx"` is not the claimed default packet. -/
theorem C10_counterexample :
    Packet.deserialize 4 0 "xx".toList ≠
      { ptype := 0, senderUuid := [], timestamp := 0, payload := JObj.nil } := by
  decide

/-- C10, amended: for every input that is not a JSON-object document,
`deserialize` signals no error and returns a packet with empty sender and empty
payload whose type and timestamp are the indeterminate default-initialized
values; `processPacket` dispatches a packet whose type value is 0 (`HELLO`) to
the HELLO handler, so when the indeterminate byte happens to be 0 a malformed
frame is indistinguishable from a HELLO with empty fields. -/
theorem C10_fallback_packet (junkType : Nat) (junkTs : Int) (data : Str)
    (h : docIsObject data = false) :
    Packet.deserialize junkType junkTs data =
      { ptype := junkType, senderUuid := [], timestamp := junkTs,
        payload := JObj.nil } ∧
    (∀ (st : NMState) (sock : Nat) (sender : Str) (ts : Int) (payload : JObj),
      processPacket st sock
        { ptype := ptHELLO, senderUuid := sender, timestamp := ts,
          payload := payload } =
      handleHello st sock
        { ptype := ptHELLO, senderUuid := sender, timestamp := ts,
          payload := payload }) :=
  ⟨deserialize_not_object junkType junkTs data h,
    fun _ _ _ _ _ => rfl⟩

/-- C10, witness: the amended statement at the malformed input `"xx"` with
indeterminate values 4 and -7. -/
theorem C10_fallback_witness :
    docIsObject "xx".toList = false ∧
    Packet.deserialize 4 (-7) "xx".toList =
      { ptype := 4, senderUuid := [], timestamp := -7, payload := JObj.nil } :=
  ⟨by decide, (C10_fallback_packet 4 (-7) "xx".toList (by decide)).1⟩

/-- C6: the codec round-trip as amended: for every packet value — any of the 14
types, any sender, any timestamp, any canonically-representable payload object —
whose serialized JSON document is shorter than `2 ^ 32` (the range of the
32-bit length prefix), decoding the framed wire form restores the packet
exactly, regardless of the indeterminate fallback values. -/
theorem C6_roundtrip (p : Packet) (junkType : Nat) (junkTs : Int)
    (htype : p.ptype < 14) (hcanon : canonO p.payload = true)
    (hsize : p.serializeJson.length < 2 ^ 32) :
    decodeFrame junkType junkTs p.serialize = p :=
  packet_roundtrip_core p junkType junkTs htype hsize

/-- A concrete `FINISH` packet exercising every field. -/
def pW : Packet :=
  { ptype := 4, senderUuid := "ab".toList, timestamp := -5,
    payload := JObj.cons "accuracy".toList (Json.num 93)
      (JObj.cons "wpm".toList (Json.num 80) JObj.nil) }

/-- C6, witness: the round-trip at the concrete packet `pW`. -/
theorem C6_roundtrip_witness :
    (pW.ptype < 14 ∧ canonO pW.payload = true ∧
      pW.serializeJson.length < 2 ^ 32) ∧
    decodeFrame 9 3 pW.serialize = pW :=
  ⟨⟨by decide, by decide, by decide⟩,
    C6_roundtrip pW 9 3 (by decide) (by decide) (by decide)⟩

/-- C6, counterexample: for `pBig`, whose serialized JSON document is exactly
`2 ^ 32` characters long, the 32-bit cast truncates the length prefix to 0 and
decoding the encoded wire form does not restore the packet. -/
theorem C6_counterexample : decodeFrame 0 0 pBig.serialize ≠ pBig := by
  rw [pBig_decode_default]
  intro h
  have h2 := congrArg Packet.senderUuid h
  rw [pBig] at h2
  have h3 : (2 ^ 32 - 42 : Nat) = 0 := by
    have h4 : List.replicate (2 ^ 32 - 42) 'A' = ([] : List Char) := h2.symm
    rwa [List.replicate_eq_nil_iff] at h4
  norm_num at h3

/-- `processPacket` (`NetworkManager.cpp` 845-881) has no dispatch case for any
type numbered 11 or above (`KICK`, `PLAY_AGAIN_INVITE`, `PLAY_AGAIN_RESPONSE`,
or any junk value): the if-chain falls through and the packet is dropped. -/
theorem processPacket_no_case (st : NMState) (sock : Nat) (pkt : Packet)
    (h : 11 ≤ pkt.ptype) : processPacket st sock pkt = (st, []) := by
  rw [processPacket]
  rw [if_neg (by simp only [ptHELLO]; omega)]
  rw [if_neg (by simp only [ptPEER_LIST]; omega)]
  rw [if_neg (by simp only [ptGAME_START]; omega)]
  rw [if_neg (by simp only [ptPROGRESS_UPDATE]; omega)]
  rw [if_neg (by simp only [ptFINISH]; omega)]
  rw [if_neg (by simp only [ptGAME_TEXT]; omega)]
  rw [if_neg (by simp only [ptCOUNTDOWN]; omega)]
  rw [if_neg (by simp only [ptPLAYER_LEFT]; omega)]
  rw [if_neg (by simp only [ptRACE_RESULTS]; omega)]
  rw [if_neg (by simp only [ptREADY_CHECK]; omega)]
  rw [if_neg (by simp only [ptREADY_RESPONSE]; omega)]

/-- C2, amended: `onPeerDisconnected` applies the same removal path to every
registered handshake-complete peer — including the host's link.  For any state
and socket resolving to a registered peer entry (non-empty uuid and name), the
result is exactly: remove from `m_peers` and `m_players`, recompute authority
as `m_isRoomCreator`, close the socket, and emit `playersChanged`,
`peersChanged`, `playerLeft(name)` (plus `authorityChanged` when the recompute
changed the flag).  No host-specific teardown, `hostDisconnected` signal, or
return-to-menu path exists: when the departing peer is the host, the guest
keeps its lobby/game state and merely deletes one entry. -/
theorem C2_disconnect_uniform_removal (st : NMState) (sock : Nat)
    (kv : Str × PeerConn)
    (hfind : peersFindBySock st sock = some kv)
    (huuid : kv.2.uuid ≠ [])
    (hname : kv.2.pname ≠ [])
    (hreg : st.m_peers.find kv.2.uuid = some kv.2) :
    onPeerDisconnected st sock =
      ({ st with
          m_peers := st.m_peers.remove kv.2.uuid
          m_players := st.m_players.remove kv.2.uuid
          m_isAuthority := st.m_isRoomCreator },
        [Eff.closeSock kv.2.sock, Eff.playersChanged, Eff.peersChanged,
          Eff.playerLeft kv.2.pname] ++
        (if st.m_isAuthority ≠ st.m_isRoomCreator then [Eff.authorityChanged]
         else [])) := by
  rw [onPeerDisconnected]
  simp only [hfind]
  rw [if_pos huuid, removePeer, hreg]
  simp only [updateAuthority]
  rw [if_pos hname]
  split_ifs with hauth
  · simp
  · simp

/-- C2 amended, witness: the guest of `stC2` losing its link to the host
(socket 3, uuid `"hhhh"`) takes exactly the uniform removal path. -/
theorem C2_disconnect_witness :
    (peersFindBySock stC2 3 = some ("hhhh".toList, peerHostIn) ∧
      peerHostIn.uuid = stC2.m_hostUuid) ∧
    onPeerDisconnected stC2 3 =
      ({ stC2 with
          m_peers := stC2.m_peers.remove peerHostIn.uuid
          m_players := stC2.m_players.remove peerHostIn.uuid
          m_isAuthority := stC2.m_isRoomCreator },
        [Eff.closeSock peerHostIn.sock, Eff.playersChanged, Eff.peersChanged,
          Eff.playerLeft peerHostIn.pname] ++
        (if stC2.m_isAuthority ≠ stC2.m_isRoomCreator then [Eff.authorityChanged]
         else [])) :=
  ⟨⟨by decide, by decide⟩,
    C2_disconnect_uniform_removal stC2 3 ("hhhh".toList, peerHostIn)
      (by decide) (by decide) (by decide) (by decide)⟩

/-- C4: no framing failure closes the link or removes the peer, and the
`static_cast<int>(4 + packetSize)` guard diverges from exact arithmetic.  At
`stC4`: a complete frame whose four payload bytes are not JSON (`c4frame`) is
consumed with no effect at all — the junk packet (indeterminate type byte 99)
has no dispatch case — and the peer stays registered; and a frame with length
prefix `2^31`, far exceeding the four available payload bytes, does not wait:
`static_cast<int>(4 + 2^31)` is negative, the guard passes, `mid` clamps the
four bytes into the packet, and the wrapped `remove(0, 4 + packetSize)` clears
the whole buffer — partial data is consumed, again with no close, no removal
and no error. -/
theorem C4_framing_failure_never_closes :
    ((onPeerReadyRead 99 0 stC4 4 c4frame).1.m_peers.contains "pppp".toList = true ∧
     (onPeerReadyRead 99 0 stC4 4 c4frame).2 = []) ∧
    ((onPeerReadyRead 99 0 stC4 4 (be32 (2 ^ 31) ++ "abcd".toList)).1 =
        updatePeerObject stC4 4 (fun p => { p with readBuffer := [] }) ∧
     (onPeerReadyRead 99 0 stC4 4 (be32 (2 ^ 31) ++ "abcd".toList)).2 = []) := by
  decide
